import Mathlib

/-!
A verification development for the 2D mesh generator (Rust sources under
`src/`).  The code is shallowly embedded: `f64` coordinates are modelled as
exact rationals (`ℚ`); the one place where the IEEE value `+∞` matters
(`circumradius_squared` of degenerate triangles, `src/elements.rs`) is
modelled by the two-constructor type `QInf` together with the relevant IEEE
rules (`x - c = +∞` for finite `c` when `x = +∞`, and `d < +∞` holds for
every finite `d`).  Slice indexing `points[i]` is modelled by `List.getD`
with a default point; invariants proved below show the indices stay in
bounds on the paths that matter.  Randomness (`rand::Rng`) is modelled by
explicit oracle arguments: theorems quantify over every oracle, hence cover
every resolution of the random draws.
-/

namespace MeshGen

/-- Model of `Point` (src/geometry.rs): a 2D coordinate pair.  The optional
`id` field of the lib.rs variant is never read by the meshing code and is
omitted. -/
structure Point where
  x : ℚ
  y : ℚ
deriving DecidableEq, Repr

instance : Inhabited Point := ⟨⟨0, 0⟩⟩

/-- `Point::distance_squared_to` (src/lib.rs line 27): `dx*dx + dy*dy`. -/
def Point.distance_squared_to (p other : Point) : ℚ :=
  (p.x - other.x) * (p.x - other.x) + (p.y - other.y) * (p.y - other.y)

/-- The `f64` values taken by `circumradius_squared`: either a finite
rational or the IEEE `+∞` produced for degenerate triangles. -/
inductive QInf where
  | fin (q : ℚ)
  | inf
deriving DecidableEq, Repr

/-- The epsilon `1e-10` used by the circumcircle code (src/elements.rs). -/
def eps10 : ℚ := 1 / 10000000000

/-- The determinant `d` of `Triangle::calculate_circumcircle`
(src/elements.rs line 34): `2*(ax*(by-cy) + bx*(cy-ay) + cx*(ay-by))`. -/
def circumDet (p1 p2 p3 : Point) : ℚ :=
  2 * (p1.x * (p2.y - p3.y) + p2.x * (p3.y - p1.y) + p3.x * (p1.y - p2.y))

/-- `Triangle::calculate_circumcircle` (src/elements.rs lines 22-47) on the
three resolved points: when `|d| < 1e-10` return center `(0,0)` and radius
`+∞`, otherwise solve for the circumcenter and cache the squared distance
to the first vertex. -/
def calculateCircumcircle (p1 p2 p3 : Point) : Point × QInf :=
  let d := circumDet p1 p2 p3
  if |d| < eps10 then (⟨0, 0⟩, QInf.inf)
  else
    let ux := ((p1.x * p1.x + p1.y * p1.y) * (p2.y - p3.y) +
               (p2.x * p2.x + p2.y * p2.y) * (p3.y - p1.y) +
               (p3.x * p3.x + p3.y * p3.y) * (p1.y - p2.y)) / d
    let uy := ((p1.x * p1.x + p1.y * p1.y) * (p3.x - p2.x) +
               (p2.x * p2.x + p2.y * p2.y) * (p1.x - p3.x) +
               (p3.x * p3.x + p3.y * p3.y) * (p2.x - p1.x)) / d
    let circumcenter : Point := ⟨ux, uy⟩
    (circumcenter, QInf.fin (circumcenter.distance_squared_to p1))

/-- Model of `Triangle` (src/elements.rs): three vertex indices
(`vertices[0..2]` become `v0 v1 v2`) plus the cached circumcircle. -/
structure Triangle where
  v0 : ℕ
  v1 : ℕ
  v2 : ℕ
  circumcenter : Point
  circumradius_squared : QInf
deriving DecidableEq, Repr

instance : Inhabited Triangle := ⟨⟨0, 0, 0, ⟨0, 0⟩, QInf.fin 0⟩⟩

/-- `Triangle::new` (src/elements.rs lines 13-20): store the vertex indices
and the circumcircle computed from the current point array. -/
def Triangle.new (a b c : ℕ) (points : List Point) : Triangle :=
  let p1 := points.getD a default
  let p2 := points.getD b default
  let p3 := points.getD c default
  let cc := calculateCircumcircle p1 p2 p3
  ⟨a, b, c, cc.1, cc.2⟩

/-- `Triangle::contains_point_in_circumcircle` (src/elements.rs lines
49-52): `dist² < circumradius² - 1e-10`.  When the cached radius is the
IEEE `+∞`, the subtraction yields `+∞` again and the comparison holds for
every finite squared distance, so the test returns `true`. -/
def Triangle.contains_point_in_circumcircle (t : Triangle) (point : Point) : Bool :=
  match t.circumradius_squared with
  | QInf.inf => true
  | QInf.fin r => decide (t.circumcenter.distance_squared_to point < r - eps10)

/-- `Triangle::jacobian` (src/elements.rs lines 87-98):
`dx21*dy31 - dx31*dy21`. -/
def Triangle.jacobian (t : Triangle) (points : List Point) : ℚ :=
  let p1 := points.getD t.v0 default
  let p2 := points.getD t.v1 default
  let p3 := points.getD t.v2 default
  (p2.x - p1.x) * (p3.y - p1.y) - (p3.x - p1.x) * (p2.y - p1.y)

/-- `Triangle::area` (src/elements.rs lines 54-60):
`0.5 * |(p2.x-p1.x)*(p3.y-p1.y) - (p3.x-p1.x)*(p2.y-p1.y)|`. -/
def Triangle.area (t : Triangle) (points : List Point) : ℚ :=
  let p1 := points.getD t.v0 default
  let p2 := points.getD t.v1 default
  let p3 := points.getD t.v2 default
  (1 / 2) * |(p2.x - p1.x) * (p3.y - p1.y) - (p3.x - p1.x) * (p2.y - p1.y)|

/-- Model of `Edge` (src/elements.rs lines 105-129): an unordered vertex
pair, canonicalised by `Edge::new` so `lo ≤ hi`; equality compares the
canonical pair, exactly as the Rust `PartialEq` on the stored array. -/
structure Edge where
  lo : ℕ
  hi : ℕ
deriving DecidableEq, Repr

/-- `Edge::new` (src/elements.rs lines 111-114): store `[v1,v2]` sorted. -/
def Edge.new (v1 v2 : ℕ) : Edge :=
  if v1 < v2 then ⟨v1, v2⟩ else ⟨v2, v1⟩

/-!
`Quad::min_jacobian` evaluates the bilinear shape-function derivatives at
the Gauss points `±1/√3`.  Every intermediate value lies in the quadratic
field `ℚ(√3)`, represented exactly as `a + b·√3` below, so the `f64`
computation is idealised to exact arithmetic in that field.  `√3` being
irrational, the representation is canonical: two `Q3` values are equal iff
their components are.
-/

/-- An element `a + b·√3` of `ℚ(√3)`. -/
structure Q3 where
  a : ℚ
  b : ℚ
deriving DecidableEq, Repr

namespace Q3

def ofQ (q : ℚ) : Q3 := ⟨q, 0⟩

def add (x y : Q3) : Q3 := ⟨x.a + y.a, x.b + y.b⟩

def sub (x y : Q3) : Q3 := ⟨x.a - y.a, x.b - y.b⟩

def neg (x : Q3) : Q3 := ⟨-x.a, -x.b⟩

def mul (x y : Q3) : Q3 := ⟨x.a * y.a + 3 * x.b * y.b, x.a * y.b + x.b * y.a⟩

/-- Decides `a + b·√3 ≤ 0` by sign analysis: with `a ≥ 0` it requires
`b ≤ 0` and `a² ≤ 3b²`; with `a < 0` it holds when `b ≤ 0`, and otherwise
reduces to `3b² ≤ a²`. -/
def nonpos (x : Q3) : Bool :=
  if 0 ≤ x.a then decide (x.b ≤ 0) && decide (x.a * x.a ≤ 3 * (x.b * x.b))
  else decide (x.b ≤ 0) || decide (3 * (x.b * x.b) ≤ x.a * x.a)

/-- `x ≤ y` in `ℚ(√3)`, via `x - y ≤ 0`. -/
def le (x y : Q3) : Bool := (x.sub y).nonpos

/-- `f64::min` on exact `ℚ(√3)` values (no NaNs arise). -/
def fmin (x y : Q3) : Q3 := if le x y then x else y

end Q3

/-- The Gauss abscissa `1/√3 = 0 + (1/3)·√3` of `Quad::min_jacobian`
(src/elements.rs line 175). -/
def gaussPoint : Q3 := ⟨0, 1 / 3⟩

/-- Model of `Quad` (src/elements.rs lines 131-139): four vertex indices. -/
structure Quad where
  q0 : ℕ
  q1 : ℕ
  q2 : ℕ
  q3 : ℕ
deriving DecidableEq, Repr

/-- The bilinear Jacobian of `Quad::min_jacobian` evaluated at one sample
`(xi, eta)` (src/elements.rs lines 183-188), computed in `ℚ(√3)`. -/
def quadJacobianAt (p1 p2 p3 p4 : Point) (xi eta : Q3) : Q3 :=
  let one : Q3 := Q3.ofQ 1
  let quarter : Q3 := Q3.ofQ (1 / 4)
  let dxdxi := quarter.mul (((((one.sub eta).mul (Q3.ofQ p1.x)).neg).add
    ((one.sub eta).mul (Q3.ofQ p2.x))).add
    (((one.add eta).mul (Q3.ofQ p3.x)).sub ((one.add eta).mul (Q3.ofQ p4.x))))
  let dxdeta := quarter.mul ((((((one.sub xi).mul (Q3.ofQ p1.x)).neg).sub
    ((one.add xi).mul (Q3.ofQ p2.x))).add
    ((one.add xi).mul (Q3.ofQ p3.x))).add ((one.sub xi).mul (Q3.ofQ p4.x)))
  let dydxi := quarter.mul (((((one.sub eta).mul (Q3.ofQ p1.y)).neg).add
    ((one.sub eta).mul (Q3.ofQ p2.y))).add
    (((one.add eta).mul (Q3.ofQ p3.y)).sub ((one.add eta).mul (Q3.ofQ p4.y))))
  let dydeta := quarter.mul ((((((one.sub xi).mul (Q3.ofQ p1.y)).neg).sub
    ((one.add xi).mul (Q3.ofQ p2.y))).add
    ((one.add xi).mul (Q3.ofQ p3.y))).add ((one.sub xi).mul (Q3.ofQ p4.y)))
  (dxdxi.mul dydeta).sub (dxdeta.mul dydxi)

/-- `Quad::min_jacobian` (src/elements.rs lines 167-193): the minimum of
the Jacobian over the four Gauss samples
`(xi, eta) ∈ {(-g,-g), (g,-g), (g,g), (-g,g)}`.  The Rust fold starts from
`f64::INFINITY`; all four samples are finite, so the result is their
left-fold minimum starting from the first sample. -/
def Quad.min_jacobian (q : Quad) (points : List Point) : Q3 :=
  let p1 := points.getD q.q0 default
  let p2 := points.getD q.q1 default
  let p3 := points.getD q.q2 default
  let p4 := points.getD q.q3 default
  let g := gaussPoint
  let j0 := quadJacobianAt p1 p2 p3 p4 g.neg g.neg
  let j1 := quadJacobianAt p1 p2 p3 p4 g g.neg
  let j2 := quadJacobianAt p1 p2 p3 p4 g g
  let j3 := quadJacobianAt p1 p2 p3 p4 g.neg g
  ((j0.fmin j1).fmin j2).fmin j3

/-- Model of `Mesh` (src/mesh.rs lines 6-13). -/
structure Mesh where
  vertices : List Point
  triangles : List (List Point)
  triangle_indices : List (ℕ × ℕ × ℕ)
  quads : Option (List (List Point))
  quad_indices : Option (List (ℕ × ℕ × ℕ × ℕ))
deriving DecidableEq, Repr

/-- `Mesh::new` (src/mesh.rs lines 16-33). -/
def Mesh.new (vertices : List Point) (triangles : List Triangle) : Mesh :=
  { vertices := vertices
    triangles := triangles.map fun t =>
      [vertices.getD t.v0 default, vertices.getD t.v1 default, vertices.getD t.v2 default]
    triangle_indices := triangles.map fun t => (t.v0, t.v1, t.v2)
    quads := none
    quad_indices := none }

/-- Modelled from the spec: `Triangle::volume` is called by the adaptive
size refinement (src/annealing.rs lines 507, 521, 647, 663, 690) but is
defined nowhere in the source tree; §4.3 of the spec identifies a
triangle's "volume" with its area ("find triangles with area > 2×target
area (oversized) and < min area (undersized)", "ratio of this triangle's
area to the mesh's mean area"). -/
def Triangle.volume (t : Triangle) (points : List Point) : ℚ :=
  t.area points

/-- The structured content of the `validate_jacobians` error strings:
`"Triangle {i} has non-positive Jacobian: {j}"` carries the element index
and the Jacobian value, and likewise for quads. -/
inductive JacobianError where
  | triangle (i : ℕ) (jacobian : ℚ)
  | quad (i : ℕ) (min_jacobian : Q3)
deriving DecidableEq, Repr

/-- The Jacobian computed by `validate_jacobians` for one triangle index
triple: `Triangle::new(*tv, vertices).jacobian(vertices)` (src/mesh.rs
lines 37-38). -/
def triangleJacobianOf (vertices : List Point) (tv : ℕ × ℕ × ℕ) : ℚ :=
  (Triangle.new tv.1 tv.2.1 tv.2.2 vertices).jacobian vertices

/-- The minimum Jacobian computed by `validate_jacobians` for one quad
index tuple: `Quad::new(*qv).min_jacobian(vertices)` (src/mesh.rs lines
46-47). -/
def quadMinJacobianOf (vertices : List Point) (qv : ℕ × ℕ × ℕ × ℕ) : Q3 :=
  Quad.min_jacobian ⟨qv.1, qv.2.1, qv.2.2.1, qv.2.2.2⟩ vertices

/-- The Jacobian checked by `validate_jacobians` for the `i`-th triangle
index triple of a mesh. -/
def Mesh.triangleJacobianAt (m : Mesh) (i : ℕ) : ℚ :=
  triangleJacobianOf m.vertices (m.triangle_indices.getD i (0, 0, 0))

/-- The minimum Jacobian checked by `validate_jacobians` for the `i`-th
quad index tuple of a list of quads. -/
def quadMinJacobianAt (qs : List (ℕ × ℕ × ℕ × ℕ)) (vertices : List Point) (i : ℕ) : Q3 :=
  quadMinJacobianOf vertices (qs.getD i (0, 0, 0, 0))

/-- The triangle loop of `Mesh::validate_jacobians` (src/mesh.rs lines
36-42): scan triangles in order, returning the first with Jacobian ≤ 0. -/
def validateTriangles (vertices : List Point) :
    List (ℕ × ℕ × ℕ) → ℕ → Except JacobianError Unit
  | [], _ => Except.ok ()
  | tv :: rest, i =>
    let jacobian := triangleJacobianOf vertices tv
    if jacobian ≤ 0 then Except.error (JacobianError.triangle i jacobian)
    else validateTriangles vertices rest (i + 1)

/-- The quad loop of `Mesh::validate_jacobians` (src/mesh.rs lines 44-52). -/
def validateQuads (vertices : List Point) :
    List (ℕ × ℕ × ℕ × ℕ) → ℕ → Except JacobianError Unit
  | [], _ => Except.ok ()
  | qv :: rest, i =>
    let mj := quadMinJacobianOf vertices qv
    if mj.nonpos then Except.error (JacobianError.quad i mj)
    else validateQuads vertices rest (i + 1)

/-- `Mesh::validate_jacobians` (src/mesh.rs lines 35-55): check every
triangle, then every quad, returning the first offender.  It takes `&self`
and builds only a fresh error, so the mesh is not modified; the model is
accordingly a pure function of the mesh. -/
def Mesh.validate_jacobians (m : Mesh) : Except JacobianError Unit :=
  match validateTriangles m.vertices m.triangle_indices 0 with
  | Except.error e => Except.error e
  | Except.ok () =>
    match m.quad_indices with
    | some qs => validateQuads m.vertices qs 0
    | none => Except.ok ()

/-!  ### Delaunay triangulator (src/delaunay.rs)  -/

/-- Model of `DelaunayTriangulator` (src/delaunay.rs lines 6-10); the
super-triangle index array `[usize; 3]` becomes a triple. -/
structure DelaunayTriangulator where
  points : List Point
  triangles : List Triangle
  super_triangle_indices : ℕ × ℕ × ℕ
deriving Repr

/-- `DelaunayTriangulator::calculate_bounds` (src/delaunay.rs lines 41-55):
`(min_x, max_x, min_y, max_y)` over the points.  The Rust fold starts from
`±∞`; for a nonempty list this equals folding min/max from the first
element, which is how it is modelled here.  (On an empty list the Rust
values are non-finite and the downstream super-triangle coordinates become
NaN; no claim depends on the coordinates produced for empty input, and the
model returns zeros there.) -/
def calculate_bounds : List Point → ℚ × ℚ × ℚ × ℚ
  | [] => (0, 0, 0, 0)
  | p :: rest =>
    rest.foldl
      (fun acc q => (min acc.1 q.x, max acc.2.1 q.x, min acc.2.2.1 q.y, max acc.2.2.2 q.y))
      (p.x, p.x, p.y, p.y)

/-- `DelaunayTriangulator::create_super_triangle` (src/delaunay.rs lines
57-70). -/
def create_super_triangle (bounds : ℚ × ℚ × ℚ × ℚ) : List Point :=
  let dx := bounds.2.1 - bounds.1
  let dy := bounds.2.2.2 - bounds.2.2.1
  let delta_max := max dx dy
  let mid_x := (bounds.1 + bounds.2.1) / 2
  let mid_y := (bounds.2.2.1 + bounds.2.2.2) / 2
  [⟨mid_x - 20 * delta_max, mid_y - delta_max⟩,
   ⟨mid_x, mid_y + 20 * delta_max⟩,
   ⟨mid_x + 20 * delta_max, mid_y - delta_max⟩]

/-- `DelaunayTriangulator::new` (src/delaunay.rs lines 13-39): append the
3 super-triangle points, reverse the super triangle's winding if its
Jacobian is negative, and seed the triangle list with it. -/
def DelaunayTriangulator.new (pts : List Point) : DelaunayTriangulator :=
  let bounds := calculate_bounds pts
  let super_triangle := create_super_triangle bounds
  let original_count := pts.length
  let points := pts ++ super_triangle
  let sti : ℕ × ℕ × ℕ := (original_count, original_count + 1, original_count + 2)
  let superTri := Triangle.new sti.1 sti.2.1 sti.2.2 points
  let sti' := if superTri.jacobian points < 0 then (sti.2.2, sti.2.1, sti.1) else sti
  { points := points
    triangles := [Triangle.new sti'.1 sti'.2.1 sti'.2.2 points]
    super_triangle_indices := sti' }

/-- The three directed edges `(vertices[i], vertices[(i+1)%3])` of a
triangle, canonicalised by `Edge::new` (src/delaunay.rs line 105). -/
def triangleEdges (t : Triangle) : List Edge :=
  [Edge.new t.v0 t.v1, Edge.new t.v1 t.v2, Edge.new t.v2 t.v0]

/-- `DelaunayTriangulator::triangle_contains_edge` (src/delaunay.rs lines
151-159): whether one of the triangle's canonical edges equals `edge`. -/
def triangle_contains_edge (triangle : Triangle) (edge : Edge) : Bool :=
  (triangleEdges triangle).any fun e => e == edge

/-- The cavity-boundary extraction of `bowyer_watson_add_point`
(src/delaunay.rs lines 100-126): for each bad triangle (by index into
`triangles`) and each of its 3 edges, keep the edge unless some *other*
bad triangle also contains it. -/
def polygonEdgesOf (triangles : List Triangle) (bad_triangles : List ℕ) : List Edge :=
  bad_triangles.flatMap fun bt =>
    (triangleEdges (triangles.getD bt default)).filter fun edge =>
      ! bad_triangles.any fun ob =>
          ob != bt && triangle_contains_edge (triangles.getD ob default) edge

/-- The re-fill step of `bowyer_watson_add_point` (src/delaunay.rs lines
134-146): connect each cavity-boundary edge to the inserted point, swapping
the edge's two vertices when the Jacobian of the first attempt is not
positive. -/
def refillTriangles (points : List Point) (polygon_edges : List Edge)
    (point_index : ℕ) : List Triangle :=
  polygon_edges.map fun edge =>
    let new_triangle := Triangle.new edge.lo edge.hi point_index points
    if new_triangle.jacobian points > 0 then new_triangle
    else Triangle.new edge.hi edge.lo point_index points

/-- The bad-triangle identification of `bowyer_watson_add_point`
(src/delaunay.rs lines 93-98): the indices of the triangles whose
circumcircle contains the new point. -/
def badTrianglesOf (s : DelaunayTriangulator) (point : Point) : List ℕ :=
  (s.triangles.enum.filter fun p => p.2.contains_point_in_circumcircle point).map
    Prod.fst

/-- `DelaunayTriangulator::bowyer_watson_add_point` (src/delaunay.rs lines
89-149): find the bad triangles, extract the cavity boundary, remove the
bad triangles, and re-fill the cavity.  The Rust function returns
`Result<(), String>` but constructs no error on any path, so the model
returns the updated state.  Removal of the bad triangles by descending
index (lines 128-132) removes exactly the listed positions, modelled by
filtering the enumerated triangle list. -/
def bowyer_watson_add_point (s : DelaunayTriangulator) (point_index : ℕ) :
    DelaunayTriangulator :=
  let point := s.points.getD point_index default
  let bad_triangles := badTrianglesOf s point
  let polygon_edges := polygonEdgesOf s.triangles bad_triangles
  let retained :=
    (s.triangles.enum.filter fun p => ! bad_triangles.contains p.1).map Prod.snd
  { s with triangles := retained ++ refillTriangles s.points polygon_edges point_index }

/-- `DelaunayTriangulator::remove_super_triangle` (src/delaunay.rs lines
166-173): drop every triangle one of whose vertices is a super-triangle
index. -/
def remove_super_triangle (s : DelaunayTriangulator) : DelaunayTriangulator :=
  let sti := s.super_triangle_indices
  { s with
    triangles := s.triangles.filter fun t =>
      ! ([t.v0, t.v1, t.v2].any fun v => v == sti.1 || v == sti.2.1 || v == sti.2.2) }

/-- `DelaunayTriangulator::triangulate` (src/delaunay.rs lines 72-86):
insert each original point, remove the super triangle, and build the mesh
from the first `original_point_count` points.  The Rust function returns
`Result<Mesh, String>` but every insertion returns `Ok`, so the model
returns the mesh. -/
def DelaunayTriangulator.triangulate (s : DelaunayTriangulator) : Mesh :=
  let original_point_count := s.points.length - 3
  let s1 := (List.range original_point_count).foldl bowyer_watson_add_point s
  let s2 := remove_super_triangle s1
  Mesh.new (s2.points.take original_point_count) s2.triangles

/-!  ### Annealing optimizers (src/annealing.rs)  -/

/-- The tolerance `1e-6` of the boundary-proximity tests. -/
def tol6 : ℚ := 1 / 1000000

/-- The ray-casting loop shared by the point-in-polygon tests
(src/annealing.rs lines 290-307 and 784-797, src/generation.rs lines
153-169): iterate `i` over the polygon with `j` the previous index
(starting at `len - 1`), toggling `inside` when the edge `(j, i)` straddles
the point's horizontal line and the crossing lies to the point's right. -/
def rayCast (polygon : List Point) (point : Point) : Bool :=
  (List.range polygon.length).foldl
    (fun inside i =>
      let pi := polygon.getD i default
      let pj := polygon.getD ((i + polygon.length - 1) % polygon.length) default
      if (decide (pi.y > point.y) != decide (pj.y > point.y)) &&
         decide (point.x < (pj.x - pi.x) * (point.y - pi.y) / (pj.y - pi.y) + pi.x) then
        !inside
      else inside)
    false

/-- `GeneralAnnealingOptimizer::is_point_inside_boundary` (src/annealing.rs
lines 777-800): with no boundary points every move is allowed, otherwise
ray casting decides. -/
def is_point_inside_boundary (boundary_points : List Point) (point : Point) : Bool :=
  if boundary_points.isEmpty then true
  else rayCast boundary_points point

/-- `GeneralAnnealingOptimizer::is_boundary_vertex` (src/annealing.rs lines
802-818): the vertex is within squared distance `1e-6` of some boundary
point. -/
def is_boundary_vertex (boundary_points : List Point) (vertex : Point) : Bool :=
  if boundary_points.isEmpty then false
  else boundary_points.any fun bp =>
    decide ((vertex.x - bp.x) * (vertex.x - bp.x) + (vertex.y - bp.y) * (vertex.y - bp.y) < tol6)

/-- The exact-match pass of `count_boundary_vertices` (src/annealing.rs
lines 739-748): how many vertices lie within squared distance `1e-6` of
some boundary point. -/
def boundaryMatchCount (boundary_points vertices : List Point) : ℕ :=
  (vertices.filter fun vertex =>
    boundary_points.any fun bp =>
      decide ((vertex.x - bp.x) * (vertex.x - bp.x) + (vertex.y - bp.y) * (vertex.y - bp.y) < tol6)).length

/-- `GeneralAnnealingOptimizer::count_boundary_vertices` (src/annealing.rs
lines 731-761): 0 without boundary constraints; otherwise the exact-match
count, replaced by the conservative estimate
`min(boundary_points.len(), vertices.len() / 3)` when fewer matches were
found than boundary points supplied. -/
def count_boundary_vertices (boundary_points vertices : List Point) : ℕ :=
  if boundary_points.isEmpty then 0
  else
    let boundary_vertex_count := boundaryMatchCount boundary_points vertices
    if boundary_vertex_count < boundary_points.length then
      min boundary_points.length (vertices.length / 3)
    else boundary_vertex_count

/-- Model of `GeneralAnnealingOptimizer` (src/annealing.rs lines 328-343);
the ambient `ThreadRng` is replaced by explicit oracle arguments at the
call sites. -/
structure GeneralAnnealingOptimizer where
  temperature : ℚ
  cooling_rate : ℚ
  max_iterations : ℕ
  check_volume : Bool
  check_aspect_ratio : Bool
  target_aspect_ratio : ℚ
  volume_weight : ℚ
  aspect_ratio_weight : ℚ
  check_size_uniformity : Bool
  size_uniformity_weight : ℚ
  target_area : ℚ
  min_area : ℚ
  boundary_points : List Point
deriving Repr

/-- Modelled from the spec: `crate::geometry::AnnealingOptions` is imported
by src/annealing.rs line 365 but `src/geometry.rs` does not define it; the
field list follows §6 of the spec (`annealing_options` of `MeshRequest`). -/
structure AnnealingOptions where
  temperature : Option ℚ := none
  cooling_rate : Option ℚ := none
  max_iterations : Option ℕ := none
  quality_threshold : Option ℚ := none
  check_volume : Option Bool := none
  check_aspect_ratio : Option Bool := none
  target_aspect_ratio : Option ℚ := none
  volume_weight : Option ℚ := none
  aspect_ratio_weight : Option ℚ := none
  check_size_uniformity : Option Bool := none
  size_uniformity_weight : Option ℚ := none
  target_area : Option ℚ := none
  min_area : Option ℚ := none
deriving Repr

/-- `GeneralAnnealingOptimizer::from_options` (src/annealing.rs lines
365-382): each field defaults as in the source (`1000.0`, `0.995`,
`10000`, ..., `0.1`, `0.01`), with an empty boundary. -/
def GeneralAnnealingOptimizer.from_options (options : AnnealingOptions) :
    GeneralAnnealingOptimizer :=
  { temperature := options.temperature.getD 1000
    cooling_rate := options.cooling_rate.getD (995 / 1000)
    max_iterations := options.max_iterations.getD 10000
    check_volume := options.check_volume.getD true
    check_aspect_ratio := options.check_aspect_ratio.getD true
    target_aspect_ratio := options.target_aspect_ratio.getD (173 / 100)
    volume_weight := options.volume_weight.getD (3 / 10)
    aspect_ratio_weight := options.aspect_ratio_weight.getD (4 / 10)
    check_size_uniformity := options.check_size_uniformity.getD true
    size_uniformity_weight := options.size_uniformity_weight.getD (3 / 10)
    target_area := options.target_area.getD (1 / 10)
    min_area := options.min_area.getD (1 / 100)
    boundary_points := [] }

/-- `GeneralAnnealingOptimizer::set_boundary` (src/annealing.rs lines
384-386). -/
def GeneralAnnealingOptimizer.set_boundary (opt : GeneralAnnealingOptimizer)
    (boundary_points : List Point) : GeneralAnnealingOptimizer :=
  { opt with boundary_points := boundary_points }

/-- One iteration's random draws in `optimize_mesh` (src/annealing.rs lines
412-431): `idx` resolves `gen_range(boundary_count..len)` (reduced modulo
the range length so every oracle names an in-range index), `dx`/`dy`
resolve the two perturbation draws (the source draws them from
`[-temperature*0.05, temperature*0.05)`; the theorems below hold for every
displacement, hence for the drawn ones), and `accept` resolves the
Metropolis test (which compares the real-valued `calculate_enhanced_quality`
scores and an RNG draw). -/
structure GARandom where
  idx : ℕ
  dx : ℚ
  dy : ℚ
  accept : Bool

/-- `GeneralAnnealingOptimizer::update_triangles_after_vertex_move`
(src/annealing.rs lines 763-775): refresh the denormalized point triple of
every triangle containing the moved vertex. -/
def update_triangles_after_vertex_move (m : Mesh) (moved_vertex_idx : ℕ) : Mesh :=
  { m with
    triangles := m.triangle_indices.enum.foldl
      (fun ts p =>
        if p.2.1 == moved_vertex_idx || p.2.2.1 == moved_vertex_idx ||
           p.2.2.2 == moved_vertex_idx then
          ts.set p.1 [m.vertices.getD p.2.1 default, m.vertices.getD p.2.2.1 default,
            m.vertices.getD p.2.2.2 default]
        else ts)
      m.triangles }

/-- The body of one `optimize_mesh` annealing iteration (src/annealing.rs
lines 411-446): when there is an eligible vertex, pick one at random from
`boundary_count..len`, perturb it, and apply the move only if the new
position is inside the boundary and the old position is not a boundary
vertex; an accepted move keeps the new position, a rejected one restores
the old position (each time refreshing the affected triangles). -/
def gaIterBody (opt : GeneralAnnealingOptimizer) (o : GARandom)
    (boundary_count : ℕ) (m : Mesh) : Mesh :=
  if !m.vertices.isEmpty && decide (boundary_count < m.vertices.length) then
    let vertex_idx := boundary_count + o.idx % (m.vertices.length - boundary_count)
    let old_vertex := m.vertices.getD vertex_idx default
    let new_vertex : Point := ⟨old_vertex.x + o.dx, old_vertex.y + o.dy⟩
    if is_point_inside_boundary opt.boundary_points new_vertex &&
       !is_boundary_vertex opt.boundary_points old_vertex then
      let m1 := update_triangles_after_vertex_move
        { m with vertices := m.vertices.set vertex_idx new_vertex } vertex_idx
      if o.accept then m1
      else update_triangles_after_vertex_move
        { m1 with vertices := m1.vertices.set vertex_idx old_vertex } vertex_idx
    else m
  else m

/-- The phase-1 annealing loop of `optimize_mesh` (src/annealing.rs lines
408-450), fuel-indexed by the remaining iteration budget
(`max_iterations - iterations`): while the budget remains and
`temperature > 0.1`, run one iteration body, then multiply the temperature
by the cooling rate and advance the iteration counter — once per
iteration, on every path. -/
def optimizeLoopGA (opt : GeneralAnnealingOptimizer) (oracle : ℕ → GARandom)
    (boundary_count : ℕ) : ℕ → ℕ → ℚ → Mesh → Mesh
  | 0, _, _, m => m
  | fuel + 1, iterations, temperature, m =>
    if temperature > 1 / 10 then
      optimizeLoopGA opt oracle boundary_count fuel (iterations + 1)
        (temperature * opt.cooling_rate) (gaIterBody opt (oracle iterations) boundary_count m)
    else m

/-- `GeneralAnnealingOptimizer::find_oversized_triangles` (src/annealing.rs
lines 501-515): indices of triangles with volume above `target_area * 2`. -/
def find_oversized_triangles (opt : GeneralAnnealingOptimizer) (m : Mesh) : List ℕ :=
  (m.triangle_indices.enum.filter fun p =>
    decide ((Triangle.new p.2.1 p.2.2.1 p.2.2.2 m.vertices).volume m.vertices >
      opt.target_area * 2)).map Prod.fst

/-- `GeneralAnnealingOptimizer::find_undersized_triangles` (src/annealing.rs
lines 517-529): indices of triangles with volume below `min_area`. -/
def find_undersized_triangles (opt : GeneralAnnealingOptimizer) (m : Mesh) : List ℕ :=
  (m.triangle_indices.enum.filter fun p =>
    decide ((Triangle.new p.2.1 p.2.2.1 p.2.2.2 m.vertices).volume m.vertices <
      opt.min_area)).map Prod.fst

/-- `GeneralAnnealingOptimizer::split_triangle` (src/annealing.rs lines
531-562): append the triangle's centroid as a new vertex when it lies
inside the boundary. -/
def split_triangle (opt : GeneralAnnealingOptimizer) (m : Mesh)
    (triangle_idx : ℕ) : Mesh × Bool :=
  if m.triangle_indices.length ≤ triangle_idx then (m, false)
  else
    let tv := m.triangle_indices.getD triangle_idx (0, 0, 0)
    let p1 := m.vertices.getD tv.1 default
    let p2 := m.vertices.getD tv.2.1 default
    let p3 := m.vertices.getD tv.2.2 default
    let centroid : Point := ⟨(p1.x + p2.x + p3.x) / 3, (p1.y + p2.y + p3.y) / 3⟩
    if is_point_inside_boundary opt.boundary_points centroid then
      ({ m with vertices := m.vertices ++ [centroid] }, true)
    else (m, false)

/-- `GeneralAnnealingOptimizer::handle_small_triangle` (src/annealing.rs
lines 564-605): move each of the triangle's three vertices 10% toward the
triangle's centroid, skipping a vertex only when its nudged position falls
outside the boundary.  (There is no boundary-vertex check here.) -/
def handle_small_triangle (opt : GeneralAnnealingOptimizer) (m : Mesh)
    (triangle_idx : ℕ) : Mesh × Bool :=
  if m.triangle_indices.length ≤ triangle_idx then (m, false)
  else
    let tv := m.triangle_indices.getD triangle_idx (0, 0, 0)
    let p1 := m.vertices.getD tv.1 default
    let p2 := m.vertices.getD tv.2.1 default
    let p3 := m.vertices.getD tv.2.2 default
    let centroid_x := (p1.x + p2.x + p3.x) / 3
    let centroid_y := (p1.y + p2.y + p3.y) / 3
    let verts := [tv.1, tv.2.1, tv.2.2].foldl
      (fun vs vertex_idx =>
        if vertex_idx < vs.length then
          let vertex := vs.getD vertex_idx default
          let new_point : Point := ⟨vertex.x + (centroid_x - vertex.x) * (1 / 10),
            vertex.y + (centroid_y - vertex.y) * (1 / 10)⟩
          if is_point_inside_boundary opt.boundary_points new_point then
            vs.set vertex_idx new_point
          else vs
        else vs)
      m.vertices
    ({ m with vertices := verts }, true)

/-- `GeneralAnnealingOptimizer::retriangulate_mesh` (src/annealing.rs lines
607-621): rebuild the triangulation from the current vertices. -/
def retriangulate_mesh (m : Mesh) : Mesh :=
  let new_mesh := (DelaunayTriangulator.new m.vertices).triangulate
  { m with
    vertices := new_mesh.vertices
    triangle_indices := new_mesh.triangle_indices
    triangles := new_mesh.triangles }

/-- One pass of `adaptive_size_refinement` (src/annealing.rs lines
464-494): collect the oversized and undersized triangle indices first,
then split the oversized ones and nudge the undersized ones, reporting
whether anything changed. -/
def adaptiveOnePass (opt : GeneralAnnealingOptimizer) (m : Mesh) : Mesh × Bool :=
  let oversized := find_oversized_triangles opt m
  let undersized := find_undersized_triangles opt m
  let r1 := oversized.foldl
    (fun acc ti => let r := split_triangle opt acc.1 ti; (r.1, acc.2 || r.2)) (m, false)
  undersized.foldl
    (fun acc ti => let r := handle_small_triangle opt acc.1 ti; (r.1, acc.2 || r.2)) r1

/-- `GeneralAnnealingOptimizer::adaptive_size_refinement` (src/annealing.rs
lines 460-499): up to `max_refinement_iterations = 3` passes; stop early
when a pass changes nothing, otherwise retriangulate and continue. -/
def adaptive_size_refinement (opt : GeneralAnnealingOptimizer) :
    ℕ → Mesh → Mesh
  | 0, m => m
  | n + 1, m =>
    let r := adaptiveOnePass opt m
    if !r.2 then r.1
    else adaptive_size_refinement opt n (retriangulate_mesh r.1)

/-- `GeneralAnnealingOptimizer::optimize_mesh` (src/annealing.rs lines
388-458): skip quad meshes and empty meshes; otherwise run the phase-1
annealing loop with the computed boundary-vertex count and then the
adaptive size refinement.  The Rust function mutates `mesh` and returns
`Result<(), String>`; no path constructs an error, so the model returns
the final mesh. -/
def GeneralAnnealingOptimizer.optimize_mesh (opt : GeneralAnnealingOptimizer)
    (oracle : ℕ → GARandom) (m : Mesh) : Mesh :=
  if (match m.quads with | some qs => !qs.isEmpty | none => false) then m
  else if m.triangles.isEmpty then m
  else
    let boundary_count := count_boundary_vertices opt.boundary_points m.vertices
    let m1 := optimizeLoopGA opt oracle boundary_count opt.max_iterations 0 opt.temperature m
    adaptive_size_refinement opt 3 m1

/-!  ### Grid annealing generator (src/annealing.rs lines 7-326)  -/

/-- The mutable state of `optimize_with_annealing`: the iteration counter,
current temperature, and the point/triangle sets of the generator. -/
structure GridAnnState where
  iterations : ℕ
  temperature : ℚ
  boundary_points : List Point
  internal_points : List Point
  triangles : List Triangle

/-- One iteration's random draws in `optimize_with_annealing`
(src/annealing.rs lines 154-181): `point_idx` resolves
`gen_range(0..internal_points.len())` (reduced modulo the length), `dx`/`dy`
the perturbation draws, and `accept` the Metropolis test on the
real-valued `calculate_mesh_quality` scores. -/
structure GridRandom where
  point_idx : ℕ
  dx : ℚ
  dy : ℚ
  accept : Bool

/-- `GridAnnealingMeshGenerator::update_triangulation_after_move`
(src/annealing.rs lines 225-237): retriangulate boundary plus internal
points from scratch and rebuild the triangle list. -/
def grid_update_triangulation (s : GridAnnState) : GridAnnState :=
  let all_points := s.boundary_points ++ s.internal_points
  let mesh := (DelaunayTriangulator.new all_points).triangulate
  { s with
    triangles := mesh.triangle_indices.map fun tv =>
      Triangle.new tv.1 tv.2.1 tv.2.2 mesh.vertices }

/-- The move attempt of one `optimize_with_annealing` iteration
(src/annealing.rs lines 154-183): perturb a random internal point; if the
new position is inside the polygon, apply it and retriangulate, restoring
the old position (and retriangulating again) when the move is rejected. -/
def gridIterBody (o : GridRandom) (s : GridAnnState) : GridAnnState :=
  if !s.internal_points.isEmpty then
    let point_idx := o.point_idx % s.internal_points.length
    let old_point := s.internal_points.getD point_idx default
    let new_point : Point := ⟨old_point.x + o.dx, old_point.y + o.dy⟩
    if rayCast s.boundary_points new_point then
      let s1 := grid_update_triangulation
        { s with internal_points := s.internal_points.set point_idx new_point }
      if o.accept then s1
      else grid_update_triangulation
        { s1 with internal_points := s1.internal_points.set point_idx old_point }
    else s
  else s

/-- The loop of `GridAnnealingMeshGenerator::optimize_with_annealing`
(src/annealing.rs lines 146-187), fuel-indexed by the remaining iteration
budget: while budget remains and `temperature > 0.1`, stop early when the
current quality (supplied by the `quality` oracle, since
`calculate_mesh_quality` is real-valued) exceeds the threshold; otherwise
run the move body, multiply the temperature by the cooling rate and
advance the iteration counter — exactly once per iteration on every path. -/
def gridAnnealLoop (cooling_rate quality_threshold : ℚ) (oracle : ℕ → GridRandom)
    (quality : ℕ → ℚ) : ℕ → GridAnnState → GridAnnState
  | 0, s => s
  | fuel + 1, s =>
    if s.temperature > 1 / 10 then
      if quality s.iterations > quality_threshold then s
      else
        let s' := gridIterBody (oracle s.iterations) s
        gridAnnealLoop cooling_rate quality_threshold oracle quality fuel
          { s' with
            temperature := s'.temperature * cooling_rate
            iterations := s'.iterations + 1 }
    else s

/-- Model of `GridAnnealingMeshGenerator` (src/annealing.rs lines 7-15),
minus the ambient RNG. -/
structure GridAnnealingMeshGenerator where
  boundary_points : List Point
  internal_points : List Point
  triangles : List Triangle
  quality_threshold : ℚ
  temperature : ℚ
  cooling_rate : ℚ

/-- `GridAnnealingMeshGenerator::optimize_with_annealing` (src/annealing.rs
lines 140-191): run the annealing loop from iteration 0 at the generator's
starting temperature with the given iteration budget, returning the final
state. -/
def GridAnnealingMeshGenerator.optimize_with_annealing
    (g : GridAnnealingMeshGenerator) (oracle : ℕ → GridRandom)
    (quality : ℕ → ℚ) (max_iterations : ℕ) : GridAnnState :=
  gridAnnealLoop g.cooling_rate g.quality_threshold oracle quality max_iterations
    { iterations := 0
      temperature := g.temperature
      boundary_points := g.boundary_points
      internal_points := g.internal_points
      triangles := g.triangles }

/-!  ### Mesh generation façade (src/generation.rs)  -/

/-- Modelled from the spec: `crate::geometry::Geometry` is imported by
src/generation.rs line 1 but `src/geometry.rs` does not define it; §6 of
the spec gives `geometry: { points: [...], name? }`. -/
structure Geometry where
  points : List Point
  name : Option String := none

/-- Modelled from the spec: `crate::geometry::MeshRequest` is imported by
src/generation.rs line 1 but `src/geometry.rs` does not define it; §6 of
the spec gives the field list used here. -/
structure MeshRequest where
  geometry : Geometry
  max_area : Option ℚ := none
  min_angle : Option ℚ := none
  algorithm : Option String := none
  annealing_options : Option AnnealingOptions := none

/-- `generate_paving_mesh` (src/generation.rs lines 85-93) relative to the
paving back end (`PavingMeshGenerator::generate_mesh`, abstracted as the
parameter `pavingGen`): fewer than 4 points is rejected before the
generator is even constructed. -/
def generate_paving_mesh (pavingGen : MeshRequest → Except String Mesh)
    (request : MeshRequest) : Except String Mesh :=
  if request.geometry.points.length < 4 then
    Except.error "Need at least 4 points for paving mesh"
  else pavingGen request

/-- `generate_annealing_mesh` (src/generation.rs lines 52-83) relative to
the RNG-driven annealing back end (abstracted as `annealingGen`). -/
def generate_annealing_mesh (annealingGen : MeshRequest → Except String Mesh)
    (request : MeshRequest) : Except String Mesh :=
  if request.geometry.points.length < 3 then
    Except.error "Need at least 3 points for annealing mesh"
  else annealingGen request

/-- `generate_mesh` (src/generation.rs lines 38-50) relative to the three
algorithm back ends, each abstracted as a function parameter (the delaunay
back end covers hexagonal-grid seeding, triangulation, boundary filtering
and validation; the other two are the paving and annealing pipelines).
Requests with fewer than 3 points are rejected before any back end runs;
otherwise dispatch on the algorithm tag, defaulting to `"delaunay"` (the
wildcard arm of the Rust `match` also lands there). -/
def generate_mesh (delaunayGen pavingGen annealingGen : MeshRequest → Except String Mesh)
    (request : MeshRequest) : Except String Mesh :=
  if request.geometry.points.length < 3 then
    Except.error "Need at least 3 points to generate mesh"
  else
    let algorithm := request.algorithm.getD "delaunay"
    if algorithm = "paving" then generate_paving_mesh pavingGen request
    else if algorithm = "annealing" then generate_annealing_mesh annealingGen request
    else delaunayGen request

/-- A concrete optimizer for exercising `optimize_mesh`: defaults from
`from_options` except a zero iteration budget (so phase 1 performs no
move), with a 4×4 square boundary installed via `set_boundary`. -/
def squareOptimizer : GeneralAnnealingOptimizer :=
  (GeneralAnnealingOptimizer.from_options { max_iterations := some 0 }).set_boundary
    [⟨0, 0⟩, ⟨4, 0⟩, ⟨4, 4⟩, ⟨0, 4⟩]

/-- A concrete mesh holding one tiny triangle (area `1/200 < min_area`)
whose first vertex sits exactly on the boundary corner `(0,0)`. -/
def tinyCornerMesh : Mesh :=
  { vertices := [⟨0, 0⟩, ⟨1 / 10, 0⟩, ⟨0, 1 / 10⟩]
    triangles := [[⟨0, 0⟩, ⟨1 / 10, 0⟩, ⟨0, 1 / 10⟩]]
    triangle_indices := [(0, 1, 2)]
    quads := none
    quad_indices := none }

/-!  ## Helper lemmas  -/

theorem jacobian_new (a b c : ℕ) (pts : List Point) :
    (Triangle.new a b c pts).jacobian pts =
      ((pts.getD b default).x - (pts.getD a default).x) *
        ((pts.getD c default).y - (pts.getD a default).y) -
      ((pts.getD c default).x - (pts.getD a default).x) *
        ((pts.getD b default).y - (pts.getD a default).y) := rfl

theorem jacobian_swap (a b c : ℕ) (pts : List Point) :
    (Triangle.new b a c pts).jacobian pts = -((Triangle.new a b c pts).jacobian pts) := by
  rw [jacobian_new, jacobian_new]
  ring

theorem contains_of_radius_inf (t : Triangle) (h : t.circumradius_squared = QInf.inf)
    (p : Point) : t.contains_point_in_circumcircle p = true := by
  unfold Triangle.contains_point_in_circumcircle
  rw [h]

theorem points_bowyer (s : DelaunayTriangulator) (i : ℕ) :
    (bowyer_watson_add_point s i).points = s.points := rfl

theorem points_foldl (l : List ℕ) (s : DelaunayTriangulator) :
    (l.foldl bowyer_watson_add_point s).points = s.points := by
  induction l generalizing s with
  | nil => rfl
  | cons a l ih => rw [List.foldl_cons, ih, points_bowyer]

theorem new_points (pts : List Point) :
    (DelaunayTriangulator.new pts).points =
      pts ++ create_super_triangle (calculate_bounds pts) := rfl

theorem new_points_length (pts : List Point) :
    (DelaunayTriangulator.new pts).points.length = pts.length + 3 := by
  rw [new_points, List.length_append]
  rfl

theorem remove_super_points (s : DelaunayTriangulator) :
    (remove_super_triangle s).points = s.points := rfl

/-- The number of vertices of the mesh built by `triangulate` equals the
number of points handed to `DelaunayTriangulator::new`. -/
theorem triangulate_new_vertices_length (pts : List Point) :
    ((DelaunayTriangulator.new pts).triangulate).vertices.length = pts.length := by
  show (((remove_super_triangle
      ((List.range ((DelaunayTriangulator.new pts).points.length - 3)).foldl
        bowyer_watson_add_point (DelaunayTriangulator.new pts))).points.take
      ((DelaunayTriangulator.new pts).points.length - 3)).length) = pts.length
  rw [remove_super_points, points_foldl, new_points_length, List.length_take,
    new_points_length]
  omega

/-- Membership in the filtered-enumeration removal pattern implies
membership in the original list. -/
theorem mem_of_mem_enum_filter_map_snd {α : Type} (l : List α) (P : ℕ × α → Bool)
    (x : α) (h : x ∈ (l.enum.filter P).map Prod.snd) : x ∈ l := by
  obtain ⟨p, hp, rfl⟩ := List.mem_map.1 h
  have h3 : p.2 ∈ l.enum.map Prod.snd := List.mem_map_of_mem _ (List.mem_of_mem_filter hp)
  rwa [List.enum_map_snd] at h3

theorem getD_mem_of_lt {α : Type} [Inhabited α] (l : List α) (i : ℕ)
    (h : i < l.length) : l.getD i default ∈ l := by
  rw [List.getD_eq_getElem _ _ h]
  exact List.getElem_mem h

theorem badTriangles_lt (s : DelaunayTriangulator) (p : Point) :
    ∀ i ∈ badTrianglesOf s p, i < s.triangles.length := by
  intro i hi
  unfold badTrianglesOf at hi
  obtain ⟨q, hq, rfl⟩ := List.mem_map.1 hi
  exact (List.getElem?_eq_some.1
    (List.mem_enum_iff_getElem?.1 (List.mem_of_mem_filter hq))).1

/-- All three vertex indices of a triangle are below `n`. -/
def TriOK (n : ℕ) (t : Triangle) : Prop := t.v0 < n ∧ t.v1 < n ∧ t.v2 < n

theorem edge_new_lt (a b n : ℕ) (ha : a < n) (hb : b < n) :
    (Edge.new a b).lo < n ∧ (Edge.new a b).hi < n := by
  unfold Edge.new
  split
  · exact ⟨ha, hb⟩
  · exact ⟨hb, ha⟩

theorem triangleEdges_lt (t : Triangle) (n : ℕ) (h : TriOK n t) :
    ∀ e ∈ triangleEdges t, e.lo < n ∧ e.hi < n := by
  intro e he
  obtain ⟨h0, h1, h2⟩ := h
  simp only [triangleEdges, List.mem_cons, List.mem_singleton] at he
  rcases he with rfl | rfl | rfl | he
  · exact edge_new_lt _ _ _ h0 h1
  · exact edge_new_lt _ _ _ h1 h2
  · exact edge_new_lt _ _ _ h2 h0
  · exact absurd he (List.not_mem_nil e)

theorem polygonEdges_lt (triangles : List Triangle) (bad : List ℕ) (n : ℕ)
    (hT : ∀ t ∈ triangles, TriOK n t) (hb : ∀ i ∈ bad, i < triangles.length) :
    ∀ e ∈ polygonEdgesOf triangles bad, e.lo < n ∧ e.hi < n := by
  intro e he
  unfold polygonEdgesOf at he
  obtain ⟨bt, hbt, he2⟩ := List.mem_flatMap.1 he
  exact triangleEdges_lt _ n (hT _ (getD_mem_of_lt _ _ (hb bt hbt))) e
    (List.mem_of_mem_filter he2)

theorem refill_TriOK (points : List Point) (edges : List Edge) (point_index n : ℕ)
    (hp : point_index < n) (he : ∀ e ∈ edges, e.lo < n ∧ e.hi < n) :
    ∀ t ∈ refillTriangles points edges point_index, TriOK n t := by
  intro t ht
  unfold refillTriangles at ht
  obtain ⟨e, hee, rfl⟩ := List.mem_map.1 ht
  obtain ⟨hlo, hhi⟩ := he e hee
  by_cases hj : (Triangle.new e.lo e.hi point_index points).jacobian points > 0
  · simp only [hj, if_true]
    exact ⟨hlo, hhi, hp⟩
  · simp only [hj, if_false]
    exact ⟨hhi, hlo, hp⟩

theorem bowyer_TriOK (s : DelaunayTriangulator) (point_index n : ℕ)
    (hp : point_index < n)
    (hT : ∀ t ∈ s.triangles, TriOK n t) :
    ∀ t ∈ (bowyer_watson_add_point s point_index).triangles, TriOK n t := by
  intro t ht
  have ht' : t ∈ ((s.triangles.enum.filter fun p =>
      ! (badTrianglesOf s (s.points.getD point_index default)).contains p.1).map
        Prod.snd) ++
      refillTriangles s.points
        (polygonEdgesOf s.triangles (badTrianglesOf s (s.points.getD point_index default)))
        point_index := ht
  rcases List.mem_append.1 ht' with h | h
  · exact hT t (mem_of_mem_enum_filter_map_snd _ _ _ h)
  · exact refill_TriOK _ _ _ n hp
      (polygonEdges_lt _ _ n hT (badTriangles_lt s _)) t h

theorem foldl_TriOK (n : ℕ) (l : List ℕ) (hl : ∀ i ∈ l, i < n) :
    ∀ s : DelaunayTriangulator,
      (∀ t ∈ s.triangles, TriOK n t) →
      ∀ t ∈ (l.foldl bowyer_watson_add_point s).triangles, TriOK n t := by
  induction l with
  | nil => intro s hT; exact hT
  | cons a l ih =>
    intro s hT
    rw [List.foldl_cons]
    exact ih (fun i hi => hl i (List.mem_cons_of_mem a hi)) _
      (bowyer_TriOK s a n (hl a (List.mem_cons_self a l)) hT)

theorem sti_bowyer (s : DelaunayTriangulator) (i : ℕ) :
    (bowyer_watson_add_point s i).super_triangle_indices =
      s.super_triangle_indices := rfl

theorem sti_foldl (l : List ℕ) (s : DelaunayTriangulator) :
    (l.foldl bowyer_watson_add_point s).super_triangle_indices =
      s.super_triangle_indices := by
  induction l generalizing s with
  | nil => rfl
  | cons a l ih => rw [List.foldl_cons, ih, sti_bowyer]

theorem new_sti (pts : List Point) :
    (DelaunayTriangulator.new pts).super_triangle_indices =
        (pts.length, pts.length + 1, pts.length + 2) ∨
      (DelaunayTriangulator.new pts).super_triangle_indices =
        (pts.length + 2, pts.length + 1, pts.length) := by
  unfold DelaunayTriangulator.new
  dsimp only
  split
  · right; rfl
  · left; rfl

theorem new_triangles (pts : List Point) :
    (DelaunayTriangulator.new pts).triangles =
      [Triangle.new (DelaunayTriangulator.new pts).super_triangle_indices.1
        (DelaunayTriangulator.new pts).super_triangle_indices.2.1
        (DelaunayTriangulator.new pts).super_triangle_indices.2.2
        (DelaunayTriangulator.new pts).points] := rfl

theorem triangle_new_v0 (a b c : ℕ) (pts : List Point) :
    (Triangle.new a b c pts).v0 = a := rfl

theorem triangle_new_v1 (a b c : ℕ) (pts : List Point) :
    (Triangle.new a b c pts).v1 = b := rfl

theorem triangle_new_v2 (a b c : ℕ) (pts : List Point) :
    (Triangle.new a b c pts).v2 = c := rfl

theorem new_TriOK (pts : List Point) :
    ∀ t ∈ (DelaunayTriangulator.new pts).triangles,
      TriOK (DelaunayTriangulator.new pts).points.length t := by
  intro t ht
  rw [new_triangles, List.mem_singleton] at ht
  subst ht
  show (DelaunayTriangulator.new pts).super_triangle_indices.1 <
      (DelaunayTriangulator.new pts).points.length ∧
    (DelaunayTriangulator.new pts).super_triangle_indices.2.1 <
      (DelaunayTriangulator.new pts).points.length ∧
    (DelaunayTriangulator.new pts).super_triangle_indices.2.2 <
      (DelaunayTriangulator.new pts).points.length
  rcases new_sti pts with h | h <;> rw [h, new_points_length] <;> dsimp only <;>
    exact ⟨by omega, by omega, by omega⟩

theorem remove_super_mem (s : DelaunayTriangulator) (t : Triangle)
    (ht : t ∈ (remove_super_triangle s).triangles) :
    t ∈ s.triangles ∧
      ∀ v ∈ [t.v0, t.v1, t.v2], v ≠ s.super_triangle_indices.1 ∧
        v ≠ s.super_triangle_indices.2.1 ∧ v ≠ s.super_triangle_indices.2.2 := by
  unfold remove_super_triangle at ht
  have h1 := List.mem_of_mem_filter ht
  have h2 := List.of_mem_filter ht
  rw [Bool.not_eq_true'] at h2
  refine ⟨h1, fun v hv => ?_⟩
  have h3 : (v == s.super_triangle_indices.1 || v == s.super_triangle_indices.2.1 ||
      v == s.super_triangle_indices.2.2) = false := by
    simpa using List.any_eq_false.1 h2 v hv
  obtain ⟨h4, h5⟩ := Bool.or_eq_false_iff.1 h3
  obtain ⟨h6, h7⟩ := Bool.or_eq_false_iff.1 h4
  exact ⟨by simpa using h6, by simpa using h7, by simpa using h5⟩

/-- C5: every index triple of the mesh produced by `triangulate` is made
of valid indices into the vertex list (no surviving triangle references a
super-triangle vertex). -/
theorem c5_theorem (pts : List Point) :
    ∀ tv ∈ ((DelaunayTriangulator.new pts).triangulate).triangle_indices,
      tv.1 < ((DelaunayTriangulator.new pts).triangulate).vertices.length ∧
      tv.2.1 < ((DelaunayTriangulator.new pts).triangulate).vertices.length ∧
      tv.2.2 < ((DelaunayTriangulator.new pts).triangulate).vertices.length := by
  intro tv htv
  rw [triangulate_new_vertices_length]
  have htv' : tv ∈ ((remove_super_triangle
      ((List.range ((DelaunayTriangulator.new pts).points.length - 3)).foldl
        bowyer_watson_add_point (DelaunayTriangulator.new pts))).triangles.map
          fun t => (t.v0, t.v1, t.v2)) := htv
  obtain ⟨t, ht, rfl⟩ := List.mem_map.1 htv'
  obtain ⟨hmem, hns⟩ := remove_super_mem _ t ht
  have hok : TriOK (DelaunayTriangulator.new pts).points.length t := by
    refine foldl_TriOK _ _ ?_ _ (new_TriOK pts) t hmem
    intro i hi
    have := List.mem_range.1 hi
    omega
  rw [sti_foldl] at hns
  have h0 := hns t.v0 (by simp)
  have h1 := hns t.v1 (by simp)
  have h2 := hns t.v2 (by simp)
  rw [new_points_length] at hok
  obtain ⟨k0, k1, k2⟩ := hok
  refine ⟨?_, ?_, ?_⟩ <;> dsimp only <;>
    rcases new_sti pts with h | h <;> rw [h] at h0 h1 h2 <;>
    dsimp only at h0 h1 h2 <;> omega

/-- C5, witness: triangulating `(0,0), (1,0), (1/2,1)` yields the single
index triple `(0,1,2)`, whose components are below the vertex count 3. -/
theorem c5_witness :
    ((0, 1, 2) ∈
      ((DelaunayTriangulator.new
        [⟨0, 0⟩, ⟨1, 0⟩, ⟨1 / 2, 1⟩]).triangulate).triangle_indices) ∧
    0 < ((DelaunayTriangulator.new
      [⟨0, 0⟩, ⟨1, 0⟩, ⟨1 / 2, 1⟩]).triangulate).vertices.length ∧
    1 < ((DelaunayTriangulator.new
      [⟨0, 0⟩, ⟨1, 0⟩, ⟨1 / 2, 1⟩]).triangulate).vertices.length ∧
    2 < ((DelaunayTriangulator.new
      [⟨0, 0⟩, ⟨1, 0⟩, ⟨1 / 2, 1⟩]).triangulate).vertices.length := by
  have hm : ((0, 1, 2) : ℕ × ℕ × ℕ) ∈
      ((DelaunayTriangulator.new
        [⟨0, 0⟩, ⟨1, 0⟩, ⟨1 / 2, 1⟩]).triangulate).triangle_indices :=
    of_decide_eq_true (by with_unfolding_all rfl)
  exact ⟨hm, c5_theorem _ _ hm⟩

/-- C2: the mesh returned by `triangulate` has exactly as many vertices as
the caller supplied points — the 3 super-triangle points appended by
`DelaunayTriangulator::new` never appear in the output vertex list. -/
theorem c2_theorem (pts : List Point) :
    ((DelaunayTriangulator.new pts).triangulate).vertices.length = pts.length :=
  triangulate_new_vertices_length pts

/-!  ## Claims  -/

/-- C1, counterexample: for the three collinear points `(0,0), (1,0),
(2,0)` the triangle stores `circumradius_squared = +∞`, yet
`contains_point_in_circumcircle` answers `true` (not `false` as claimed)
already at the point `(0,0)`: in IEEE arithmetic
`dist² < ∞ - 1e-10 = ∞` holds for every finite distance. -/
theorem c1_counterexample :
    (Triangle.new 0 1 2 [⟨0, 0⟩, ⟨1, 0⟩, ⟨2, 0⟩]).circumradius_squared = QInf.inf ∧
    (Triangle.new 0 1 2 [⟨0, 0⟩, ⟨1, 0⟩, ⟨2, 0⟩]).contains_point_in_circumcircle ⟨0, 0⟩
      = true := by
  constructor
  · with_unfolding_all rfl
  · with_unfolding_all rfl

/-- C1, amended: for every triangle whose circumcircle determinant
satisfies `|d| < 1e-10`, `Triangle::new` stores
`circumradius_squared = +∞`, and `contains_point_in_circumcircle` returns
`true` for every point — the degenerate triangle's circumcircle test
reports "contains", not "does not contain". -/
theorem c1_theorem (points : List Point) (a b c : ℕ)
    (h : |circumDet (points.getD a default) (points.getD b default)
      (points.getD c default)| < eps10) :
    (Triangle.new a b c points).circumradius_squared = QInf.inf ∧
    ∀ p : Point, (Triangle.new a b c points).contains_point_in_circumcircle p = true := by
  have hc : calculateCircumcircle (points.getD a default) (points.getD b default)
      (points.getD c default) = (⟨0, 0⟩, QInf.inf) := by
    unfold calculateCircumcircle
    rw [if_pos h]
  have hr : (Triangle.new a b c points).circumradius_squared = QInf.inf := by
    show (calculateCircumcircle (points.getD a default) (points.getD b default)
      (points.getD c default)).2 = QInf.inf
    rw [hc]
  exact ⟨hr, contains_of_radius_inf _ hr⟩

/-- C1, witness for the amended theorem at the collinear points
`(0,0), (1,0), (2,0)`. -/
theorem c1_witness :
    (|circumDet (([⟨0, 0⟩, ⟨1, 0⟩, ⟨2, 0⟩] : List Point).getD 0 default)
        (([⟨0, 0⟩, ⟨1, 0⟩, ⟨2, 0⟩] : List Point).getD 1 default)
        (([⟨0, 0⟩, ⟨1, 0⟩, ⟨2, 0⟩] : List Point).getD 2 default)| < eps10) ∧
    (Triangle.new 0 1 2 [⟨0, 0⟩, ⟨1, 0⟩, ⟨2, 0⟩]).circumradius_squared = QInf.inf ∧
    (Triangle.new 0 1 2 [⟨0, 0⟩, ⟨1, 0⟩, ⟨2, 0⟩]).contains_point_in_circumcircle ⟨5, 7⟩
      = true := by
  have h : |circumDet (([⟨0, 0⟩, ⟨1, 0⟩, ⟨2, 0⟩] : List Point).getD 0 default)
      (([⟨0, 0⟩, ⟨1, 0⟩, ⟨2, 0⟩] : List Point).getD 1 default)
      (([⟨0, 0⟩, ⟨1, 0⟩, ⟨2, 0⟩] : List Point).getD 2 default)| < eps10 :=
    of_decide_eq_true (by with_unfolding_all rfl)
  exact ⟨h, (c1_theorem _ 0 1 2 h).1, (c1_theorem _ 0 1 2 h).2 ⟨5, 7⟩⟩

/-- C10: a triangle's `area` equals `|jacobian| / 2`, and in particular is
nonnegative, whenever the vertex indices are valid for the point array. -/
theorem c10_theorem (t : Triangle) (points : List Point)
    (h0 : t.v0 < points.length) (h1 : t.v1 < points.length)
    (h2 : t.v2 < points.length) :
    t.area points = |t.jacobian points| / 2 ∧ 0 ≤ t.area points := by
  unfold Triangle.area Triangle.jacobian
  constructor
  · ring
  · positivity

/-- C10, witness: a clockwise-wound triangle on `(0,0), (0,1), (1,0)` has
Jacobian `-1` but area `1/2 = |-1| / 2 ≥ 0`. -/
theorem c10_witness :
    ((Triangle.new 0 1 2 [⟨0, 0⟩, ⟨0, 1⟩, ⟨1, 0⟩]).v0 <
        ([⟨0, 0⟩, ⟨0, 1⟩, ⟨1, 0⟩] : List Point).length ∧
      (Triangle.new 0 1 2 [⟨0, 0⟩, ⟨0, 1⟩, ⟨1, 0⟩]).v1 <
        ([⟨0, 0⟩, ⟨0, 1⟩, ⟨1, 0⟩] : List Point).length ∧
      (Triangle.new 0 1 2 [⟨0, 0⟩, ⟨0, 1⟩, ⟨1, 0⟩]).v2 <
        ([⟨0, 0⟩, ⟨0, 1⟩, ⟨1, 0⟩] : List Point).length) ∧
    (Triangle.new 0 1 2 [⟨0, 0⟩, ⟨0, 1⟩, ⟨1, 0⟩]).jacobian
        [⟨0, 0⟩, ⟨0, 1⟩, ⟨1, 0⟩] = -1 ∧
    (Triangle.new 0 1 2 [⟨0, 0⟩, ⟨0, 1⟩, ⟨1, 0⟩]).area [⟨0, 0⟩, ⟨0, 1⟩, ⟨1, 0⟩] =
      |(Triangle.new 0 1 2 [⟨0, 0⟩, ⟨0, 1⟩, ⟨1, 0⟩]).jacobian
        [⟨0, 0⟩, ⟨0, 1⟩, ⟨1, 0⟩]| / 2 ∧
    0 ≤ (Triangle.new 0 1 2 [⟨0, 0⟩, ⟨0, 1⟩, ⟨1, 0⟩]).area [⟨0, 0⟩, ⟨0, 1⟩, ⟨1, 0⟩] := by
  have h := c10_theorem (Triangle.new 0 1 2 [⟨0, 0⟩, ⟨0, 1⟩, ⟨1, 0⟩])
    [⟨0, 0⟩, ⟨0, 1⟩, ⟨1, 0⟩] (of_decide_eq_true (by with_unfolding_all rfl))
    (of_decide_eq_true (by with_unfolding_all rfl))
    (of_decide_eq_true (by with_unfolding_all rfl))
  exact ⟨⟨of_decide_eq_true (by with_unfolding_all rfl),
    of_decide_eq_true (by with_unfolding_all rfl),
    of_decide_eq_true (by with_unfolding_all rfl)⟩,
    of_decide_eq_true (by with_unfolding_all rfl), h.1, h.2⟩

/-- C3, counterexample: in the triangulator state holding the single
triangle `(0,1,2)` over points `(0,0), (2,0), (1,1), (1,0)`, inserting
point 3 `(1,0)` finds the cavity of triangle 0 and re-fills with the
boundary edge `(0,1)`, producing the triangle `(1,0,3)` — its three points
are collinear, so its signed area (Jacobian) is `0`, not strictly
positive.  The third conjunct checks the degenerate triangle indeed lands
in the updated state. -/
theorem c3_counterexample :
    (Triangle.new 1 0 3
        [⟨0, 0⟩, ⟨2, 0⟩, ⟨1, 1⟩, ⟨1, 0⟩] ∈
      refillTriangles [⟨0, 0⟩, ⟨2, 0⟩, ⟨1, 1⟩, ⟨1, 0⟩]
        (polygonEdgesOf [Triangle.new 0 1 2 [⟨0, 0⟩, ⟨2, 0⟩, ⟨1, 1⟩, ⟨1, 0⟩]]
          (badTrianglesOf
            { points := [⟨0, 0⟩, ⟨2, 0⟩, ⟨1, 1⟩, ⟨1, 0⟩]
              triangles := [Triangle.new 0 1 2 [⟨0, 0⟩, ⟨2, 0⟩, ⟨1, 1⟩, ⟨1, 0⟩]]
              super_triangle_indices := (4, 5, 6) }
            (([⟨0, 0⟩, ⟨2, 0⟩, ⟨1, 1⟩, ⟨1, 0⟩] : List Point).getD 3 default))) 3) ∧
    (Triangle.new 1 0 3 [⟨0, 0⟩, ⟨2, 0⟩, ⟨1, 1⟩, ⟨1, 0⟩]).jacobian
        [⟨0, 0⟩, ⟨2, 0⟩, ⟨1, 1⟩, ⟨1, 0⟩] = 0 ∧
    ((bowyer_watson_add_point
        { points := [⟨0, 0⟩, ⟨2, 0⟩, ⟨1, 1⟩, ⟨1, 0⟩]
          triangles := [Triangle.new 0 1 2 [⟨0, 0⟩, ⟨2, 0⟩, ⟨1, 1⟩, ⟨1, 0⟩]]
          super_triangle_indices := (4, 5, 6) } 3).triangles.getD 0 default).jacobian
        [⟨0, 0⟩, ⟨2, 0⟩, ⟨1, 1⟩, ⟨1, 0⟩] = 0 := by
  refine ⟨of_decide_eq_true (by with_unfolding_all rfl), ?_, ?_⟩
  · with_unfolding_all rfl
  · with_unfolding_all rfl

/-- C3, amended: every triangle created by the re-fill step has
*nonnegative* signed area — the swap guarantees `jacobian ≥ 0`, with `0`
exactly in the degenerate case where the inserted point is collinear with
the cavity edge (as in the counterexample). -/
theorem c3_theorem (points : List Point) (polygon_edges : List Edge)
    (point_index : ℕ) :
    ∀ t ∈ refillTriangles points polygon_edges point_index,
      0 ≤ t.jacobian points := by
  intro t ht
  unfold refillTriangles at ht
  obtain ⟨e, _, rfl⟩ := List.mem_map.1 ht
  by_cases hj : (Triangle.new e.lo e.hi point_index points).jacobian points > 0
  · simpa [hj] using le_of_lt hj
  · simp only [hj, if_false]
    rw [jacobian_swap]
    linarith [not_lt.1 hj]

/-- C3, witness for the amended theorem: the single re-fill triangle over
`(0,0), (1,0), (0,1)` from edge `(0,1)` and point 2 has Jacobian `≥ 0`. -/
theorem c3_witness :
    0 ≤ ((refillTriangles [⟨0, 0⟩, ⟨1, 0⟩, ⟨0, 1⟩] [Edge.new 0 1] 2).getD 0
      default).jacobian [⟨0, 0⟩, ⟨1, 0⟩, ⟨0, 1⟩] := by
  have hm : (refillTriangles [⟨0, 0⟩, ⟨1, 0⟩, ⟨0, 1⟩] [Edge.new 0 1] 2).getD 0 default ∈
      refillTriangles [⟨0, 0⟩, ⟨1, 0⟩, ⟨0, 1⟩] [Edge.new 0 1] 2 :=
    of_decide_eq_true (by with_unfolding_all rfl)
  exact c3_theorem [⟨0, 0⟩, ⟨1, 0⟩, ⟨0, 1⟩] [Edge.new 0 1] 2 _ hm

/-- C6: an edge of a bad triangle survives into the cavity boundary list
if and only if it is an edge of some bad triangle that no *other* bad
triangle shares (edges compared as canonicalised unordered pairs). -/
theorem c6_theorem (triangles : List Triangle) (bad_triangles : List ℕ) (e : Edge) :
    e ∈ polygonEdgesOf triangles bad_triangles ↔
      ∃ bt ∈ bad_triangles,
        e ∈ triangleEdges (triangles.getD bt default) ∧
        ∀ ob ∈ bad_triangles, ob ≠ bt →
          triangle_contains_edge (triangles.getD ob default) e = false := by
  unfold polygonEdgesOf
  simp only [List.mem_flatMap, List.mem_filter, Bool.not_eq_true', List.any_eq_false,
    Bool.and_eq_false_iff, bne_eq_false_iff_eq, Bool.not_eq_true]
  constructor
  · rintro ⟨bt, hbt, he, hsh⟩
    refine ⟨bt, hbt, he, fun ob hob hne => ?_⟩
    rcases hsh ob hob with h | h
    · exact absurd h hne
    · exact h
  · rintro ⟨bt, hbt, he, hsh⟩
    refine ⟨bt, hbt, he, fun ob hob => ?_⟩
    by_cases hne : ob = bt
    · exact Or.inl hne
    · exact Or.inr (hsh ob hob hne)

theorem validateTriangles_ok_iff (verts : List Point) :
    ∀ (l : List (ℕ × ℕ × ℕ)) (i0 : ℕ),
      validateTriangles verts l i0 = Except.ok () ↔
        ∀ k, k < l.length → 0 < triangleJacobianOf verts (l.getD k (0, 0, 0))
  | [], i0 => by simp [validateTriangles]
  | tv :: rest, i0 => by
    rw [validateTriangles]
    by_cases hj : triangleJacobianOf verts tv ≤ 0
    · rw [if_pos hj]
      constructor
      · intro h; exact absurd h (by simp)
      · intro h; exact absurd (h 0 (Nat.succ_pos _)) (not_lt.2 hj)
    · rw [if_neg hj, validateTriangles_ok_iff verts rest (i0 + 1)]
      constructor
      · intro h k hk
        match k with
        | 0 => exact not_le.1 hj
        | k + 1 => exact h k (Nat.lt_of_succ_lt_succ hk)
      · intro h k hk
        exact h (k + 1) (Nat.succ_lt_succ hk)

theorem validateTriangles_error_iff (verts : List Point) :
    ∀ (l : List (ℕ × ℕ × ℕ)) (i0 i : ℕ) (j : ℚ),
      validateTriangles verts l i0 = Except.error (JacobianError.triangle i j) ↔
        ∃ k, k < l.length ∧ i = i0 + k ∧
          j = triangleJacobianOf verts (l.getD k (0, 0, 0)) ∧ j ≤ 0 ∧
          ∀ m', m' < k → 0 < triangleJacobianOf verts (l.getD m' (0, 0, 0))
  | [], i0, i, j => by simp [validateTriangles]
  | tv :: rest, i0, i, j => by
    rw [validateTriangles]
    by_cases hj : triangleJacobianOf verts tv ≤ 0
    · rw [if_pos hj]
      constructor
      · intro h
        simp only [Except.error.injEq, JacobianError.triangle.injEq] at h
        obtain ⟨rfl, rfl⟩ := h
        exact ⟨0, Nat.succ_pos _, (Nat.add_zero i0).symm, rfl, hj,
          fun m' hm' => absurd hm' (Nat.not_lt_zero m')⟩
      · rintro ⟨k, hk, rfl, rfl, hj2, hmin⟩
        match k with
        | 0 => rfl
        | k + 1 => exact absurd (hmin 0 (Nat.succ_pos _)) (not_lt.2 hj)
    · rw [if_neg hj, validateTriangles_error_iff verts rest (i0 + 1) i j]
      constructor
      · rintro ⟨k, hk, rfl, hjv, hj2, hmin⟩
        refine ⟨k + 1, Nat.succ_lt_succ hk, by omega, hjv, hj2, ?_⟩
        intro m' hm'
        match m' with
        | 0 => exact not_le.1 hj
        | m' + 1 => exact hmin m' (Nat.lt_of_succ_lt_succ hm')
      · rintro ⟨k, hk, rfl, hjv, hj2, hmin⟩
        match k with
        | 0 => exact absurd hj2 (hjv ▸ hj)
        | k + 1 =>
          exact ⟨k, Nat.lt_of_succ_lt_succ hk, by omega, hjv, hj2,
            fun m' hm' => hmin (m' + 1) (Nat.succ_lt_succ hm')⟩

theorem validateTriangles_never_quad (verts : List Point) :
    ∀ (l : List (ℕ × ℕ × ℕ)) (i0 i : ℕ) (j : Q3),
      validateTriangles verts l i0 ≠ Except.error (JacobianError.quad i j)
  | [], i0, i, j => by simp [validateTriangles]
  | tv :: rest, i0, i, j => by
    rw [validateTriangles]
    by_cases hj : triangleJacobianOf verts tv ≤ 0
    · rw [if_pos hj]; simp
    · rw [if_neg hj]; exact validateTriangles_never_quad verts rest (i0 + 1) i j

theorem validateQuads_ok_iff (verts : List Point) :
    ∀ (l : List (ℕ × ℕ × ℕ × ℕ)) (i0 : ℕ),
      validateQuads verts l i0 = Except.ok () ↔
        ∀ k, k < l.length → (quadMinJacobianOf verts (l.getD k (0, 0, 0, 0))).nonpos = false
  | [], i0 => by simp [validateQuads]
  | qv :: rest, i0 => by
    rw [validateQuads]
    by_cases hj : (quadMinJacobianOf verts qv).nonpos = true
    · rw [if_pos hj]
      constructor
      · intro h; exact absurd h (by simp)
      · intro h
        have h0 : (quadMinJacobianOf verts qv).nonpos = false := h 0 (Nat.succ_pos _)
        exact absurd hj (by simp [h0])
    · rw [if_neg hj, validateQuads_ok_iff verts rest (i0 + 1)]
      constructor
      · intro h k hk
        match k with
        | 0 => exact Bool.not_eq_true _ ▸ Bool.of_not_eq_true hj
        | k + 1 => exact h k (Nat.lt_of_succ_lt_succ hk)
      · intro h k hk
        exact h (k + 1) (Nat.succ_lt_succ hk)

theorem validateQuads_error_iff (verts : List Point) :
    ∀ (l : List (ℕ × ℕ × ℕ × ℕ)) (i0 i : ℕ) (j : Q3),
      validateQuads verts l i0 = Except.error (JacobianError.quad i j) ↔
        ∃ k, k < l.length ∧ i = i0 + k ∧
          j = quadMinJacobianOf verts (l.getD k (0, 0, 0, 0)) ∧ j.nonpos = true ∧
          ∀ m', m' < k →
            (quadMinJacobianOf verts (l.getD m' (0, 0, 0, 0))).nonpos = false
  | [], i0, i, j => by simp [validateQuads]
  | qv :: rest, i0, i, j => by
    rw [validateQuads]
    by_cases hj : (quadMinJacobianOf verts qv).nonpos = true
    · rw [if_pos hj]
      constructor
      · intro h
        simp only [Except.error.injEq, JacobianError.quad.injEq] at h
        obtain ⟨rfl, rfl⟩ := h
        exact ⟨0, Nat.succ_pos _, (Nat.add_zero i0).symm, rfl, hj,
          fun m' hm' => absurd hm' (Nat.not_lt_zero m')⟩
      · rintro ⟨k, hk, rfl, rfl, hj2, hmin⟩
        match k with
        | 0 => rfl
        | k + 1 =>
          have h0 : (quadMinJacobianOf verts qv).nonpos = false :=
            hmin 0 (Nat.succ_pos _)
          exact absurd hj (by simp [h0])
    · rw [if_neg hj, validateQuads_error_iff verts rest (i0 + 1) i j]
      constructor
      · rintro ⟨k, hk, rfl, hjv, hj2, hmin⟩
        refine ⟨k + 1, Nat.succ_lt_succ hk, by omega, hjv, hj2, ?_⟩
        intro m' hm'
        match m' with
        | 0 => exact Bool.not_eq_true _ ▸ Bool.of_not_eq_true hj
        | m' + 1 => exact hmin m' (Nat.lt_of_succ_lt_succ hm')
      · rintro ⟨k, hk, rfl, hjv, hj2, hmin⟩
        match k with
        | 0 => exact absurd (hjv ▸ hj2) hj
        | k + 1 =>
          exact ⟨k, Nat.lt_of_succ_lt_succ hk, by omega, hjv, hj2,
            fun m' hm' => hmin (m' + 1) (Nat.succ_lt_succ hm')⟩

theorem validateQuads_never_triangle (verts : List Point) :
    ∀ (l : List (ℕ × ℕ × ℕ × ℕ)) (i0 i : ℕ) (j : ℚ),
      validateQuads verts l i0 ≠ Except.error (JacobianError.triangle i j)
  | [], i0, i, j => by simp [validateQuads]
  | qv :: rest, i0, i, j => by
    rw [validateQuads]
    by_cases hj : (quadMinJacobianOf verts qv).nonpos = true
    · rw [if_pos hj]; simp
    · rw [if_neg hj]; exact validateQuads_never_triangle verts rest (i0 + 1) i j

/-- C4: `validate_jacobians` succeeds iff no triangle has Jacobian ≤ 0 and
no quad has minimum Jacobian ≤ 0; a triangle error carries the first
offending triangle's index and its Jacobian value (all earlier triangles
being positive); a quad error arises only after all triangles pass and
carries the first offending quad's index and minimum Jacobian.  The Rust
method takes `&self` and the model is a pure function, so the mesh is not
modified by validation. -/
theorem c4_theorem (m : Mesh) :
    (m.validate_jacobians = Except.ok () ↔
      (∀ k, k < m.triangle_indices.length → 0 < m.triangleJacobianAt k) ∧
      (∀ qs, m.quad_indices = some qs →
        ∀ k, k < qs.length → (quadMinJacobianAt qs m.vertices k).nonpos = false)) ∧
    (∀ (i : ℕ) (j : ℚ),
      m.validate_jacobians = Except.error (JacobianError.triangle i j) ↔
        (i < m.triangle_indices.length ∧ j = m.triangleJacobianAt i ∧ j ≤ 0 ∧
          ∀ k, k < i → 0 < m.triangleJacobianAt k)) ∧
    (∀ (i : ℕ) (j : Q3),
      m.validate_jacobians = Except.error (JacobianError.quad i j) ↔
        ((∀ k, k < m.triangle_indices.length → 0 < m.triangleJacobianAt k) ∧
          ∃ qs, m.quad_indices = some qs ∧ i < qs.length ∧
            j = quadMinJacobianAt qs m.vertices i ∧ j.nonpos = true ∧
            ∀ k, k < i →
              (quadMinJacobianAt qs m.vertices k).nonpos = false)) := by
  unfold Mesh.validate_jacobians
  refine ⟨?_, ?_, ?_⟩
  · cases ht : validateTriangles m.vertices m.triangle_indices 0 with
    | error e =>
      dsimp only
      constructor
      · intro h; exact absurd h (by simp)
      · rintro ⟨h1, _⟩
        have := (validateTriangles_ok_iff m.vertices m.triangle_indices 0).2 h1
        rw [ht] at this
        exact this
    | ok u =>
      cases u
      dsimp only
      have h1 := (validateTriangles_ok_iff m.vertices m.triangle_indices 0).1 ht
      cases hq : m.quad_indices with
      | none =>
        dsimp only
        constructor
        · intro _
          refine ⟨h1, fun qs' hqs' => ?_⟩
          exact absurd hqs' (by simp)
        · intro _; rfl
      | some qs =>
        dsimp only
        rw [validateQuads_ok_iff m.vertices qs 0]
        constructor
        · intro h
          refine ⟨h1, fun qs' hqs' => ?_⟩
          obtain rfl : qs = qs' := Option.some_injective _ hqs'
          exact h
        · intro h
          exact h.2 qs rfl
  · intro i j
    cases ht : validateTriangles m.vertices m.triangle_indices 0 with
    | error e =>
      dsimp only
      constructor
      · intro h
        simp only [Except.error.injEq] at h
        subst h
        obtain ⟨k, hk, hik, hjv, hj0, hmin⟩ :=
          (validateTriangles_error_iff m.vertices m.triangle_indices 0 i j).1 ht
        obtain rfl : i = k := by omega
        exact ⟨hk, hjv, hj0, hmin⟩
      · rintro ⟨hi, hjv, hj0, hmin⟩
        have h2 := (validateTriangles_error_iff m.vertices m.triangle_indices 0 i j).2
          ⟨i, hi, (Nat.zero_add i).symm, hjv, hj0, hmin⟩
        rw [ht] at h2
        exact h2
    | ok u =>
      cases u
      dsimp only
      have h1 := (validateTriangles_ok_iff m.vertices m.triangle_indices 0).1 ht
      have hcontra : ∀ (hi : i < m.triangle_indices.length),
          j = m.triangleJacobianAt i → ¬ j ≤ 0 := by
        intro hi hjv
        rw [hjv]
        exact not_le.2 (h1 i hi)
      cases hq : m.quad_indices with
      | none =>
        dsimp only
        constructor
        · intro h; exact absurd h (by simp)
        · rintro ⟨hi, hjv, hj0, _⟩
          exact absurd hj0 (hcontra hi hjv)
      | some qs =>
        dsimp only
        constructor
        · intro h
          exact absurd h (validateQuads_never_triangle m.vertices qs 0 i j)
        · rintro ⟨hi, hjv, hj0, _⟩
          exact absurd hj0 (hcontra hi hjv)
  · intro i j
    cases ht : validateTriangles m.vertices m.triangle_indices 0 with
    | error e =>
      dsimp only
      constructor
      · intro h
        simp only [Except.error.injEq] at h
        subst h
        exact absurd ht (validateTriangles_never_quad m.vertices m.triangle_indices 0 i j)
      · rintro ⟨h1, _⟩
        have := (validateTriangles_ok_iff m.vertices m.triangle_indices 0).2 h1
        rw [ht] at this
        exact absurd this (by simp)
    | ok u =>
      cases u
      dsimp only
      have h1 := (validateTriangles_ok_iff m.vertices m.triangle_indices 0).1 ht
      cases hq : m.quad_indices with
      | none =>
        dsimp only
        constructor
        · intro h; exact absurd h (by simp)
        · rintro ⟨_, qs', hqs', _⟩
          exact absurd hqs' (by simp)
      | some qs =>
        dsimp only
        constructor
        · intro h
          obtain ⟨k, hk, hik, hjv, hjn, hmin⟩ :=
            (validateQuads_error_iff m.vertices qs 0 i j).1 h
          obtain rfl : i = k := by omega
          exact ⟨h1, qs, rfl, hk, hjv, hjn, hmin⟩
        · rintro ⟨_, qs', hqs', hi, hjv, hjn, hmin⟩
          obtain rfl : qs = qs' := Option.some_injective _ hqs'
          exact (validateQuads_error_iff m.vertices qs 0 i j).2
            ⟨i, hi, (Nat.zero_add i).symm, hjv, hjn, hmin⟩

/-- C4, witness: on a mesh holding one counter-clockwise triangle and one
counter-clockwise unit-square quad, validation succeeds, via the
characterisation. -/
theorem c4_witness :
    ({ vertices := [⟨0, 0⟩, ⟨1, 0⟩, ⟨1, 1⟩, ⟨0, 1⟩]
       triangles := [[⟨0, 0⟩, ⟨1, 0⟩, ⟨1, 1⟩]]
       triangle_indices := [(0, 1, 2)]
       quads := some [[⟨0, 0⟩, ⟨1, 0⟩, ⟨1, 1⟩, ⟨0, 1⟩]]
       quad_indices := some [(0, 1, 2, 3)] } : Mesh).validate_jacobians =
      Except.ok () := by
  refine (c4_theorem _).1.2 ⟨?_, ?_⟩
  · intro k hk
    obtain rfl : k = 0 := Nat.lt_one_iff.1 hk
    exact of_decide_eq_true (by with_unfolding_all rfl)
  · intro qs hqs
    obtain rfl : [(0, 1, 2, 3)] = qs := Option.some_injective _ hqs
    intro k hk
    obtain rfl : k = 0 := Nat.lt_one_iff.1 hk
    with_unfolding_all rfl

theorem getD_set_ne {α : Type} (l : List α) (i j : ℕ) (a d : α) (h : i ≠ j) :
    (l.set j a).getD i d = l.getD i d := by
  rw [List.getD_eq_getElem?_getD, List.getD_eq_getElem?_getD,
    List.getElem?_set_ne (by omega)]

theorem update_triangles_vertices (m : Mesh) (i : ℕ) :
    (update_triangles_after_vertex_move m i).vertices = m.vertices := rfl

theorem gaIterBody_vertices_length (opt : GeneralAnnealingOptimizer) (o : GARandom)
    (bc : ℕ) (m : Mesh) :
    (gaIterBody opt o bc m).vertices.length = m.vertices.length := by
  unfold gaIterBody
  by_cases hg : (!m.vertices.isEmpty && decide (bc < m.vertices.length)) = true
  · rw [if_pos hg]
    by_cases hcond : (is_point_inside_boundary opt.boundary_points
        ⟨(m.vertices.getD (bc + o.idx % (m.vertices.length - bc)) default).x + o.dx,
         (m.vertices.getD (bc + o.idx % (m.vertices.length - bc)) default).y + o.dy⟩ &&
        !is_boundary_vertex opt.boundary_points
          (m.vertices.getD (bc + o.idx % (m.vertices.length - bc)) default)) = true
    · rw [if_pos hcond]
      by_cases ha : o.accept = true
      · rw [if_pos ha, update_triangles_vertices]
        exact List.length_set _ _ _
      · rw [if_neg ha, update_triangles_vertices, update_triangles_vertices,
          List.length_set, List.length_set]
    · rw [if_neg hcond]
  · rw [if_neg hg]

theorem gaIterBody_preserve (opt : GeneralAnnealingOptimizer) (o : GARandom)
    (bc : ℕ) (m : Mesh) (i : ℕ)
    (hi : i < bc ∨
      is_boundary_vertex opt.boundary_points (m.vertices.getD i default) = true) :
    (gaIterBody opt o bc m).vertices.getD i default =
      m.vertices.getD i default := by
  unfold gaIterBody
  by_cases hg : (!m.vertices.isEmpty && decide (bc < m.vertices.length)) = true
  · rw [if_pos hg]
    by_cases hcond : (is_point_inside_boundary opt.boundary_points
        ⟨(m.vertices.getD (bc + o.idx % (m.vertices.length - bc)) default).x + o.dx,
         (m.vertices.getD (bc + o.idx % (m.vertices.length - bc)) default).y + o.dy⟩ &&
        !is_boundary_vertex opt.boundary_points
          (m.vertices.getD (bc + o.idx % (m.vertices.length - bc)) default)) = true
    · rw [if_pos hcond]
      have hne : i ≠ bc + o.idx % (m.vertices.length - bc) := by
        rcases hi with hlt | hb
        · omega
        · intro he
          rw [Bool.and_eq_true] at hcond
          obtain ⟨_, hnb⟩ := hcond
          rw [Bool.not_eq_true'] at hnb
          rw [← he, hb] at hnb
          exact absurd hnb (by simp)
      by_cases ha : o.accept = true
      · rw [if_pos ha, update_triangles_vertices]
        exact getD_set_ne _ _ _ _ _ hne
      · rw [if_neg ha, update_triangles_vertices, update_triangles_vertices]
        rw [getD_set_ne _ _ _ _ _ hne, getD_set_ne _ _ _ _ _ hne]
    · rw [if_neg hcond]
  · rw [if_neg hg]

theorem optimizeLoopGA_preserve (opt : GeneralAnnealingOptimizer)
    (oracle : ℕ → GARandom) (bc : ℕ) :
    ∀ (fuel its : ℕ) (temp : ℚ) (m : Mesh) (i : ℕ),
      (i < bc ∨
        is_boundary_vertex opt.boundary_points (m.vertices.getD i default) = true) →
      (optimizeLoopGA opt oracle bc fuel its temp m).vertices.getD i default =
        m.vertices.getD i default := by
  intro fuel
  induction fuel with
  | zero => intro its temp m i _; rfl
  | succ fuel ih =>
    intro its temp m i hi
    rw [optimizeLoopGA]
    by_cases ht : temp > 1 / 10
    · rw [if_pos ht]
      have hbody := gaIterBody_preserve opt (oracle its) bc m i hi
      have hi' : i < bc ∨
          is_boundary_vertex opt.boundary_points
            ((gaIterBody opt (oracle its) bc m).vertices.getD i default) = true := by
        rcases hi with hlt | hb
        · exact Or.inl hlt
        · exact Or.inr (by rw [hbody]; exact hb)
      rw [ih (its + 1) (temp * opt.cooling_rate) _ i hi']
      exact hbody
    · rw [if_neg ht]

set_option maxRecDepth 100000 in
/-- C7, counterexample: vertex 0 of `tinyCornerMesh` coincides with the
boundary corner `(0,0)` (squared distance `0 < 1e-6`), yet after
`optimize_mesh` — with a zero phase-1 budget, so the move comes entirely
from the adaptive size refinement's `handle_small_triangle`, which has no
boundary-vertex check — its position differs from the original. -/
theorem c7_counterexample :
    is_boundary_vertex squareOptimizer.boundary_points
      (tinyCornerMesh.vertices.getD 0 default) = true ∧
    (squareOptimizer.optimize_mesh (fun _ => ⟨0, 0, 0, true⟩)
        tinyCornerMesh).vertices.getD 0 default ≠
      tinyCornerMesh.vertices.getD 0 default := by
  constructor
  · with_unfolding_all rfl
  · exact of_decide_eq_true (by with_unfolding_all rfl)

/-- C7, amended: during the phase-1 annealing loop of `optimize_mesh`, any
mesh vertex within `1e-6` squared-distance of a boundary point keeps its
exact position (whatever the random draws), and the first
`count_boundary_vertices` vertices are never selected; when fewer exact
matches are found than boundary points supplied, that protected count is
`min(boundary_point_count, vertex_count / 3)`.  (The subsequent adaptive
size-refinement phase may still relocate boundary-close vertices of
undersized triangles, as the counterexample shows.) -/
theorem c7_theorem (opt : GeneralAnnealingOptimizer) (oracle : ℕ → GARandom)
    (m : Mesh) :
    (∀ i, is_boundary_vertex opt.boundary_points (m.vertices.getD i default) = true →
      (optimizeLoopGA opt oracle
          (count_boundary_vertices opt.boundary_points m.vertices)
          opt.max_iterations 0 opt.temperature m).vertices.getD i default =
        m.vertices.getD i default) ∧
    (∀ i, i < count_boundary_vertices opt.boundary_points m.vertices →
      (optimizeLoopGA opt oracle
          (count_boundary_vertices opt.boundary_points m.vertices)
          opt.max_iterations 0 opt.temperature m).vertices.getD i default =
        m.vertices.getD i default) ∧
    (boundaryMatchCount opt.boundary_points m.vertices < opt.boundary_points.length →
      count_boundary_vertices opt.boundary_points m.vertices =
        min opt.boundary_points.length (m.vertices.length / 3)) := by
  refine ⟨?_, ?_, ?_⟩
  · intro i hb
    exact optimizeLoopGA_preserve opt oracle _ _ _ _ m i (Or.inr hb)
  · intro i hlt
    exact optimizeLoopGA_preserve opt oracle _ _ _ _ m i (Or.inl hlt)
  · intro hless
    unfold count_boundary_vertices
    by_cases hbe : opt.boundary_points.isEmpty
    · rw [List.isEmpty_iff] at hbe
      rw [hbe] at hless
      exact absurd hless (by simp)
    · rw [if_neg hbe, if_pos hless]

/-- C7, witness for the amended theorem: the phase-1 loop on
`tinyCornerMesh` (with any oracle — here the zero oracle) leaves the
boundary-corner vertex 0 exactly in place. -/
theorem c7_witness :
    is_boundary_vertex squareOptimizer.boundary_points
      (tinyCornerMesh.vertices.getD 0 default) = true ∧
    (optimizeLoopGA squareOptimizer (fun _ => ⟨0, 0, 0, true⟩)
        (count_boundary_vertices squareOptimizer.boundary_points
          tinyCornerMesh.vertices)
        squareOptimizer.max_iterations 0 squareOptimizer.temperature
        tinyCornerMesh).vertices.getD 0 default =
      tinyCornerMesh.vertices.getD 0 default := by
  have hb : is_boundary_vertex squareOptimizer.boundary_points
      (tinyCornerMesh.vertices.getD 0 default) = true := by
    with_unfolding_all rfl
  exact ⟨hb,
    (c7_theorem squareOptimizer (fun _ => ⟨0, 0, 0, true⟩) tinyCornerMesh).1 0 hb⟩

theorem gridIterBody_temperature (o : GridRandom) (s : GridAnnState) :
    (gridIterBody o s).temperature = s.temperature := by
  unfold gridIterBody grid_update_triangulation
  by_cases hne : (!s.internal_points.isEmpty) = true
  · rw [if_pos hne]
    by_cases hin : rayCast s.boundary_points
        ⟨(s.internal_points.getD (o.point_idx % s.internal_points.length) default).x +
          o.dx,
         (s.internal_points.getD (o.point_idx % s.internal_points.length) default).y +
          o.dy⟩ = true
    · rw [if_pos hin]
      by_cases ha : o.accept = true
      · rw [if_pos ha]
      · rw [if_neg ha]
    · rw [if_neg hin]
  · rw [if_neg hne]

theorem gridIterBody_iterations (o : GridRandom) (s : GridAnnState) :
    (gridIterBody o s).iterations = s.iterations := by
  unfold gridIterBody grid_update_triangulation
  by_cases hne : (!s.internal_points.isEmpty) = true
  · rw [if_pos hne]
    by_cases hin : rayCast s.boundary_points
        ⟨(s.internal_points.getD (o.point_idx % s.internal_points.length) default).x +
          o.dx,
         (s.internal_points.getD (o.point_idx % s.internal_points.length) default).y +
          o.dy⟩ = true
    · rw [if_pos hin]
      by_cases ha : o.accept = true
      · rw [if_pos ha]
      · rw [if_neg ha]
    · rw [if_neg hin]
  · rw [if_neg hne]

theorem gridAnnealLoop_spec (cooling_rate quality_threshold : ℚ)
    (oracle : ℕ → GridRandom) (quality : ℕ → ℚ) :
    ∀ (fuel : ℕ) (s : GridAnnState),
      s.iterations ≤
          (gridAnnealLoop cooling_rate quality_threshold oracle quality fuel
            s).iterations ∧
      (gridAnnealLoop cooling_rate quality_threshold oracle quality fuel
          s).iterations ≤ s.iterations + fuel ∧
      (gridAnnealLoop cooling_rate quality_threshold oracle quality fuel
          s).temperature =
        s.temperature * cooling_rate ^
          ((gridAnnealLoop cooling_rate quality_threshold oracle quality fuel
            s).iterations - s.iterations) ∧
      ((gridAnnealLoop cooling_rate quality_threshold oracle quality fuel
          s).iterations = s.iterations + fuel ∨
        (gridAnnealLoop cooling_rate quality_threshold oracle quality fuel
          s).temperature ≤ 1 / 10 ∨
        quality (gridAnnealLoop cooling_rate quality_threshold oracle quality fuel
          s).iterations > quality_threshold) := by
  intro fuel
  induction fuel with
  | zero =>
    intro s
    rw [gridAnnealLoop]
    exact ⟨le_rfl, by omega, by rw [Nat.sub_self, pow_zero, mul_one],
      Or.inl (by omega)⟩
  | succ fuel ih =>
    intro s
    rw [gridAnnealLoop]
    by_cases htemp : s.temperature > 1 / 10
    · rw [if_pos htemp]
      by_cases hq : quality s.iterations > quality_threshold
      · rw [if_pos hq]
        exact ⟨le_rfl, by omega, by rw [Nat.sub_self, pow_zero, mul_one],
          Or.inr (Or.inr hq)⟩
      · rw [if_neg hq]
        dsimp only
        set t := gridIterBody (oracle s.iterations) s with hteq
        have H := ih { t with
          temperature := t.temperature * cooling_rate
          iterations := t.iterations + 1 }
        set r := gridAnnealLoop cooling_rate quality_threshold oracle quality fuel
          { t with
            temperature := t.temperature * cooling_rate
            iterations := t.iterations + 1 } with hreq
        dsimp only at H
        have ht_its : t.iterations = s.iterations := gridIterBody_iterations _ _
        have ht_temp : t.temperature = s.temperature := gridIterBody_temperature _ _
        rw [ht_its, ht_temp] at H
        obtain ⟨ih1, ih2, ih3, ih4⟩ := H
        refine ⟨by omega, by omega, ?_, ?_⟩
        · rw [ih3]
          have hk : r.iterations - s.iterations =
              (r.iterations - (s.iterations + 1)) + 1 := by omega
          rw [hk, pow_succ]
          ring
        · rcases ih4 with h | h | h
          · exact Or.inl (by omega)
          · exact Or.inr (Or.inl h)
          · exact Or.inr (Or.inr h)
    · rw [if_neg htemp]
      exact ⟨le_rfl, by omega, by rw [Nat.sub_self, pow_zero, mul_one],
        Or.inr (Or.inl (not_lt.1 htemp))⟩

/-- C9: for every oracle and budget, `optimize_with_annealing` (a total
function: the loop is bounded by the remaining budget) multiplies the
temperature by the cooling rate exactly once per completed iteration —
final temperature `= temperature₀ · cooling_rate ^ iterations` whatever
moves were accepted, rejected, or skipped — and stops only by exhausting
the budget, cooling to `temperature ≤ 0.1`, or early because the current
quality exceeds the threshold. -/
theorem c9_theorem (g : GridAnnealingMeshGenerator) (oracle : ℕ → GridRandom)
    (quality : ℕ → ℚ) (max_iterations : ℕ) :
    (g.optimize_with_annealing oracle quality max_iterations).temperature =
        g.temperature * g.cooling_rate ^
          (g.optimize_with_annealing oracle quality max_iterations).iterations ∧
    (g.optimize_with_annealing oracle quality max_iterations).iterations ≤
        max_iterations ∧
    ((g.optimize_with_annealing oracle quality max_iterations).iterations =
        max_iterations ∨
      (g.optimize_with_annealing oracle quality max_iterations).temperature ≤
        1 / 10 ∨
      quality (g.optimize_with_annealing oracle quality
        max_iterations).iterations > g.quality_threshold) := by
  unfold GridAnnealingMeshGenerator.optimize_with_annealing
  obtain ⟨h1, h2, h3, h4⟩ := gridAnnealLoop_spec g.cooling_rate g.quality_threshold
    oracle quality max_iterations
    { iterations := 0
      temperature := g.temperature
      boundary_points := g.boundary_points
      internal_points := g.internal_points
      triangles := g.triangles }
  dsimp only at h1 h2 h3 h4
  rw [Nat.sub_zero] at h3
  refine ⟨h3, by omega, ?_⟩
  rcases h4 with h | h | h
  · exact Or.inl (by omega)
  · exact Or.inr (Or.inl h)
  · exact Or.inr (Or.inr h)

/-- C8: `generate_mesh` rejects requests with fewer than 3 points before
dispatching to any back end, and the paving path additionally rejects
fewer than 4 points before its generator runs — the result is independent
of the three back-end functions, so no mesh construction happens. -/
theorem c8_theorem (delaunayGen pavingGen annealingGen :
      MeshRequest → Except String Mesh) (request : MeshRequest) :
    (request.geometry.points.length < 3 →
      generate_mesh delaunayGen pavingGen annealingGen request =
        Except.error "Need at least 3 points to generate mesh") ∧
    (request.algorithm = some "paving" → request.geometry.points.length < 4 →
      generate_mesh delaunayGen pavingGen annealingGen request =
        Except.error (if request.geometry.points.length < 3 then
          "Need at least 3 points to generate mesh"
        else "Need at least 4 points for paving mesh")) := by
  constructor
  · intro h
    unfold generate_mesh
    rw [if_pos h]
  · intro halg h4
    unfold generate_mesh
    by_cases h3 : request.geometry.points.length < 3
    · rw [if_pos h3, if_pos h3]
    · rw [if_neg h3, if_neg h3]
      rw [halg]
      simp only [Option.getD_some, if_true, eq_self_iff_true]
      unfold generate_paving_mesh
      rw [if_pos h4]

/-- C8, witness: 2 points are rejected with the 3-point message; 3 points
with algorithm `"paving"` are rejected with the 4-point message — with
back ends that would happily return an empty mesh. -/
theorem c8_witness :
    generate_mesh (fun _ => Except.ok ⟨[], [], [], none, none⟩)
        (fun _ => Except.ok ⟨[], [], [], none, none⟩)
        (fun _ => Except.ok ⟨[], [], [], none, none⟩)
        { geometry := { points := [⟨0, 0⟩, ⟨1, 1⟩] } } =
      Except.error "Need at least 3 points to generate mesh" ∧
    generate_mesh (fun _ => Except.ok ⟨[], [], [], none, none⟩)
        (fun _ => Except.ok ⟨[], [], [], none, none⟩)
        (fun _ => Except.ok ⟨[], [], [], none, none⟩)
        { geometry := { points := [⟨0, 0⟩, ⟨1, 0⟩, ⟨0, 1⟩] }
          algorithm := some "paving" } =
      Except.error "Need at least 4 points for paving mesh" := by
  constructor
  · exact (c8_theorem _ _ _ _).1 (by decide)
  · have h := (c8_theorem (fun _ => Except.ok ⟨[], [], [], none, none⟩)
      (fun _ => Except.ok ⟨[], [], [], none, none⟩)
      (fun _ => Except.ok ⟨[], [], [], none, none⟩)
      { geometry := { points := [⟨0, 0⟩, ⟨1, 0⟩, ⟨0, 1⟩] }
        algorithm := some "paving" }).2 rfl (by decide)
    simpa using h

end MeshGen
